import Mathlib

/-!
Verification of the WxMpCloudBooster configuration-synchronization core.

This file shallowly embeds the JavaScript source (the `utils` object of the
miniprogram library) into Lean:

* JavaScript values that flow through the config engine are modelled by the
  inductive type `Value` (undefined, null, booleans, numbers, strings, arrays,
  and plain objects as insertion-ordered association lists).  Numbers are
  modelled as integers: every number the engine itself manipulates is an
  integer (array lengths, affected-row counts), and no claim under study
  involves float arithmetic.
* Reference identity (`===`) on two distinct objects is modelled as `false`
  (`jsStrictEq`); when the same object is compared with itself the structural
  branches of `isEqual` recover the `true` answer, so results agree with the
  source for tree-shaped data.
* Fallible code returns `Except String`; a thrown JS error or a rejected
  promise is an `Except.error`.
* The asynchronous sync-engine operations are modelled as pure functions from
  the local-storage state and a remote-gateway behaviour description to a
  result, a new storage state, and a trace of the I/O effects they issued.
  Local durable-storage writes (`wx.setStorage`) are modelled as always
  succeeding; the claims under study quantify over remote-gateway failures.
-/

namespace Booster

/-- A JavaScript value as used by the configuration engine: `undefined`,
`null`, booleans, (integer) numbers, strings, arrays, and plain objects
represented as insertion-ordered association lists. -/
inductive Value where
  | undefined : Value
  | null : Value
  | bool : Bool → Value
  | num : Int → Value
  | str : String → Value
  | arr : List Value → Value
  | obj : List (String × Value) → Value

/-- Source `utils.isNone`: the value is `undefined` or `null`. -/
def isNone : Value → Bool
  | .undefined => true
  | .null => true
  | _ => false

/-- `value === undefined` as used in `putValue`. -/
def isUndefined : Value → Bool
  | .undefined => true
  | _ => false

/-- Source `utils.isArray`. -/
def isArray : Value → Bool
  | .arr _ => true
  | _ => false

/-- Source `utils.isObject`: a plain object — not an array, not
null/undefined (dates are not part of the model). -/
def isObject : Value → Bool
  | .obj _ => true
  | _ => false

/-- Source `utils.isEmpty`: `undefined`/`null`, the empty array, a blank
string, or an object with no keys. -/
def isEmpty (v : Value) : Bool :=
  isNone v ||
    (match v with
     | .arr xs => xs.isEmpty
     | .str s => s.toList.all Char.isWhitespace
     | .obj fs => fs.isEmpty
     | _ => false)

/-- JavaScript truthiness of a modelled value. -/
def jsTruthy : Value → Bool
  | .undefined => false
  | .null => false
  | .bool b => b
  | .num n => n != 0
  | .str s => s != ""
  | .arr _ => true
  | .obj _ => true

/-- JavaScript strict equality `===`.  Primitives compare by value; for two
array/object operands the source compares references, which a tree model
cannot distinguish, so the model answers `false` (the structural branches of
`isEqual` recover equality of a value with itself). -/
def jsStrictEq : Value → Value → Bool
  | .undefined, .undefined => true
  | .null, .null => true
  | .bool a, .bool b => a == b
  | .num a, .num b => a == b
  | .str a, .str b => a == b
  | _, _ => false

/-- `o[k]` on a plain object: the value of the first binding of `k`, or
`undefined` when the key is absent. -/
def objGet : List (String × Value) → String → Value
  | [], _ => .undefined
  | (k, v) :: rest, key => if k = key then v else objGet rest key

/-- `o[k] = v` on a plain object: replace the binding of `k` if present,
otherwise append a new binding (JS insertion order). -/
def objSet : List (String × Value) → String → Value → List (String × Value)
  | [], key, value => [(key, value)]
  | (k, v) :: rest, key, value =>
      if k = key then (k, value) :: rest else (k, v) :: objSet rest key value

/-- `delete o[k]` on a plain object: drop every binding of the key. -/
def objDelete : List (String × Value) → String → List (String × Value)
  | [], _ => []
  | (k, v) :: rest, key =>
      if k = key then objDelete rest key else (k, v) :: objDelete rest key

/-- The numeric value of a digit string. -/
def digitsToNat (cs : List Char) : Nat :=
  cs.foldl (fun acc ch => acc * 10 + (ch.toNat - 48)) 0

/-- The canonical array-index reading of a property name (JS treats `"3"` as
index 3 of an array, but not `"03"`). -/
def natIndexOf (s : String) : Option Nat :=
  let cs := s.toList
  if cs.length > 0 && cs.all Char.isDigit && (cs == ['0'] || !(cs.headD '0' == '0')) then
    some (digitsToNat cs)
  else
    none

/-- Property read `base[k]`.  Reading a property of `undefined`/`null` throws
a TypeError; every other value yields a value (possibly `undefined`).
Arrays and strings expose `length` and their numeric indices; other
primitives have no own properties in this model. -/
def getProp : Value → String → Except String Value
  | .undefined, _ => .error "TypeError: cannot read properties of undefined"
  | .null, _ => .error "TypeError: cannot read properties of null"
  | .obj fs, k => .ok (objGet fs k)
  | .arr xs, k =>
      .ok (if k = "length" then .num xs.length
           else match natIndexOf k with
                | some i => (xs.getD i .undefined)
                | none => .undefined)
  | .str s, k =>
      .ok (if k = "length" then .num s.length
           else match natIndexOf k with
                | some i =>
                    match s.toList.getD i ' ', decide (i < s.toList.length) with
                    | c, true => .str (String.mk [c])
                    | _, false => .undefined
                | none => .undefined)
  | .bool _, _ => .ok .undefined
  | .num _, _ => .ok .undefined

/-- Property write `base[k] = v`.  Writing a property of a plain object
updates the association list; setting an existing numeric index of an array
updates the element.  Writing to other primitives is a silent no-op
(non-strict mode).  Array expando properties and out-of-range index writes
extend the array in JS; they are not representable in the list model and are
not reached by the engine. -/
def setProp (base : Value) (k : String) (v : Value) : Value :=
  match base with
  | .obj fs => .obj (objSet fs k v)
  | .arr xs =>
      (match natIndexOf k with
       | some i => if i < xs.length then .arr (xs.set i v) else .arr xs
       | none => .arr xs)
  | other => other

/-- Property delete `delete base[k]`: removes the binding from a plain
object, and is a no-op on every other value in this model. -/
def delProp (base : Value) (k : String) : Value :=
  match base with
  | .obj fs => .obj (objDelete fs k)
  | other => other

/-- `key.includes('.')` of the source, via the character list. -/
def hasDot (key : String) : Bool :=
  key.toList.any (fun ch => ch == '.')

/-- `'a.b.c'.split('.')` over a character list: always at least one part;
empty segments are kept, as in JS. -/
def splitDots : List Char → List String
  | [] => [""]
  | c :: cs =>
      if c == '.' then "" :: splitDots cs
      else
        match splitDots cs with
        | [] => [String.mk [c]]
        | s :: rest => String.mk (c :: s.toList) :: rest

/-- The split of a dotted path into its segments (`'a.b.c'.split('.')`). -/
def splitPath (key : String) : List String := splitDots key.toList

/-- The loop of source `utils.pickValue` over the segments of a dotted key:
`obj = obj[ks[i]]`, returning the value as soon as it is `undefined`/`null`
(note: the None value itself is returned, so a stored `null` is surfaced as
`null`, not `undefined`). -/
def pickWalk : Value → List String → Except String Value
  | cur, [] => .ok cur
  | cur, k :: rest => do
      let v ← getProp cur k
      if isNone v then .ok v else pickWalk v rest

/-- Source `utils.pickValue` (identical in `part_003` and
`miniprogram/utils/utils.js`): extract the value at a dotted path. -/
def pickValue (obj : Value) (key : String) : Except String Value :=
  if hasDot key then pickWalk obj (splitPath key)
  else getProp obj key

/-- Leaf assignment of `utils.putValue`: delete the key when the value is
`undefined` and `remove_undefined` is set, otherwise store it. -/
def putLeaf (cur : Value) (k : String) (value : Value) (ru : Bool) : Value :=
  if isUndefined value && ru then delProp cur k else setProp cur k value

/-- The walk of source `utils.putValue` over the segments of a dotted key:
each intermediate node that is `undefined`/`null` is replaced by a fresh
`{}`; a non-object intermediate aborts with the source's error; the leaf key
is assigned in the last container. -/
def putSegs : Value → List String → Value → Bool → Except String Value
  | _, [], _, _ => .error "putValue: empty path"
  | cur, [k], value, ru => .ok (putLeaf cur k value ru)
  | cur, k :: k2 :: rest, value, ru => do
      let child ← getProp cur k
      let child2 ←
        if isNone child then Except.ok (Value.obj [])
        else if isObject child then Except.ok child
        else Except.error "putValue: key is invalid, segment is not an object"
      let newChild ← putSegs child2 (k2 :: rest) value ru
      .ok (setProp cur k newChild)

/-- Source `utils.putValue`: assign a value at a dotted path, creating
intermediate objects on demand.  Throws when the root is `undefined`/`null`,
or when an intermediate segment holds a non-object value. -/
def putValue (obj : Value) (key : String) (value : Value) (ru : Bool := true) :
    Except String Value :=
  if hasDot key then
    if isNone obj then .error "putValue: obj must not be null or undefined"
    else if isObject obj then putSegs obj (splitPath key) value ru
    else .error "putValue: key is invalid, segment is not an object"
  else
    if isNone obj then .error "putValue: obj must not be null or undefined"
    else .ok (putLeaf obj key value ru)

/-- Source `utils.includesDoc`: `arr.some(item => item._id === doc._id)`.
Reading `._id` of a `null`/`undefined` array element throws, hence the
`Except`. -/
def includesDoc : List Value → Value → Except String Bool
  | [], _ => .ok false
  | item :: rest, doc => do
      let a ← getProp item "_id"
      let b ← getProp doc "_id"
      if jsStrictEq a b then .ok true else includesDoc rest doc

/-- `arr.includes(value)`, SameValueZero membership, which for this model's
values coincides with strict equality. -/
def jsIncludes (xs : List Value) (value : Value) : Bool :=
  xs.any (fun x => jsStrictEq x value)

mutual

/-- Source `utils.isEqual`: recursive deep comparison.  `a === b` first
(primitives), `false` when either side is None, arrays by length and
elementwise recursion, plain objects by key count and by recursing on each
key of `a` against `b[key]` (an absent key reads as `undefined`, exactly as
in the source). -/
def isEqual (a b : Value) : Bool :=
  if jsStrictEq a b then true
  else if isNone a || isNone b then false
  else
    match a, b with
    | .arr xs, .arr ys => xs.length == ys.length && isEqualList xs ys
    | .obj fa, .obj fb => fa.length == fb.length && isEqualFields fa fb
    | _, _ => false

/-- The `for`-loop of `isEqual` over two arrays of equal length. -/
def isEqualList : List Value → List Value → Bool
  | [], _ => true
  | _, [] => true
  | x :: xs, y :: ys => isEqual x y && isEqualList xs ys

/-- The `for k in a` loop of `isEqual` over an object's bindings, comparing
each against `b[k]`. -/
def isEqualFields : List (String × Value) → List (String × Value) → Bool
  | [], _ => true
  | (k, va) :: rest, fb => isEqual va (objGet fb k) && isEqualFields rest fb

end

/-- JavaScript objects cannot bind the same key twice; an association list
represents a reachable object only when its keys are distinct at every
level.  `nodupKeys` checks one level. -/
def nodupKeys : List (String × Value) → Bool
  | [] => true
  | (k, _) :: rest => !(rest.any (fun kv => kv.1 == k)) && nodupKeys rest

mutual

/-- A value every JavaScript run can actually build: object keys are
distinct at every nesting level. -/
def wfValue : Value → Bool
  | .arr xs => wfList xs
  | .obj fs => nodupKeys fs && wfFields fs
  | _ => true

/-- `wfValue` on every element. -/
def wfList : List Value → Bool
  | [] => true
  | x :: xs => wfValue x && wfList xs

/-- `wfValue` on every bound value. -/
def wfFields : List (String × Value) → Bool
  | [] => true
  | (_, v) :: rest => wfValue v && wfFields rest

end

/-! ## The Sync Engine

The engine's asynchronous operations are modelled as pure functions.  The
local durable cache (`wx` storage) is a string-keyed association list; the
remote record gateway (`getMyOne` / `updateMyMatch` / `addDoc`, all filtered
by the calling principal's identity) is described by a `GwBehavior`
recording how each call would settle.  Every operation returns its settled
result, the storage state after the operation, and the ordered trace of I/O
effects it issued. -/

/-- The local durable cache: storage key to stored value. -/
abbrev Storage := List (String × Value)

/-- How the remote gateway would answer the (at most one) call of each kind
an operation issues.  `getResult` is the settled value of `getMyOne(c, {})`:
the record object, or `null` when no record exists, or a rejection.
`updateResult` is the affected-record count of `updateMyMatch(c, {}, doc)`.
`addResult` is the new id resolved by `addDoc(c, doc)`. -/
structure GwBehavior where
  getResult : Except String Value
  updateResult : Except String Nat
  addResult : Except String String

/-- One observable I/O effect of an engine operation. -/
inductive Eff where
  | cacheWrite : String → Value → Eff
  | gwGet : String → Eff
  | gwUpdate : String → Value → Eff
  | gwAdd : String → Value → Eff

/-- Settled result, post-state of the local cache, and the ordered effect
trace of one engine operation. -/
structure OpOut (α : Type) where
  res : Except String α
  storage : Storage
  trace : List Eff

/-- The remote-gateway calls of a trace (cache writes filtered out). -/
def gatewayCalls (tr : List Eff) : List Eff :=
  tr.filter (fun e => match e with
    | .cacheWrite _ _ => false
    | _ => true)

/-- Raw lookup in the local cache. -/
def storageGet (st : Storage) (key : String) : Option Value :=
  (st.find? (fun kv => kv.1 == key)).map (fun kv => kv.2)

/-- Source `utils.getStorage`: resolves the stored data when present and
truthy, rejects otherwise. -/
def getStorageR (st : Storage) (key : String) : Except String Value :=
  match storageGet st key with
  | some v => if jsTruthy v then .ok v else .error "getStorage Failed"
  | none => .error "getStorage Failed"

/-- Source `utils.setStorage`, modelled as always succeeding: update or
insert the key. -/
def setStorageW (st : Storage) (key : String) (v : Value) : Storage :=
  objSet st key v

/-- The fresh document the engine creates when neither cache nor record
exists: `c.endsWith('_user') ? {is_admin: false} : {}`. -/
def freshDoc (c : String) : Value :=
  if "_user".toList.isSuffixOf c.toList then .obj [("is_admin", .bool false)] else .obj []

/-- `pickValue(data, key) ?? default_value`. -/
def pickOrDefault (data : Value) (key : String) (dflt : Value) : Except String Value := do
  let v ← pickValue data key
  .ok (if isNone v then dflt else v)

/-- Source `utils._saveUserConfigToStorageAndCloudDB`: strip `_openid` and
`_id` from the document, write it to the local cache, then update the
remote record; on zero affected rows fetch the record to decide between
"record exists, values already matched" (done) and "no record" (create).
The `updated > 1` branch only emits a log line and is not modelled. -/
def saveUserConfigToStorageAndCloudDB (c : String) (doc : Value) (st : Storage)
    (gw : GwBehavior) : OpOut Unit :=
  let skey := "s_" ++ c
  match putValue doc "_openid" .undefined true with
  | .error e => ⟨.error e, st, []⟩
  | .ok d1 =>
    match putValue d1 "_id" .undefined true with
    | .error e => ⟨.error e, st, []⟩
    | .ok d2 =>
      let st1 := setStorageW st skey d2
      let tr1 := [Eff.cacheWrite skey d2, Eff.gwUpdate c d2]
      match gw.updateResult with
      | .error _ => ⟨.error "_saveUserConfigToStorageAndCloudDB Failed: updateMatch", st1, tr1⟩
      | .ok updated =>
        if updated > 0 then ⟨.ok (), st1, tr1⟩
        else
          match gw.getResult with
          | .error _ =>
              ⟨.error "_saveUserConfigToStorageAndCloudDB Failed: getOne", st1,
                tr1 ++ [Eff.gwGet c]⟩
          | .ok ex =>
            if !jsTruthy ex then
              match gw.addResult with
              | .ok _ => ⟨.ok (), st1, tr1 ++ [Eff.gwGet c, Eff.gwAdd c d2]⟩
              | .error _ =>
                  ⟨.error "_saveUserConfigToStorageAndCloudDB Failed: addDoc", st1,
                    tr1 ++ [Eff.gwGet c, Eff.gwAdd c d2]⟩
            else ⟨.ok (), st1, tr1 ++ [Eff.gwGet c]⟩

/-- Source `utils.getUserConfig`: read one config value.  Cache hit: resolve
`pickValue(data, key) ?? default_value` with no I/O.  Cache miss: fetch the
record once; if present, strip the reserved fields and cache it; if absent,
cache the fresh document; in both cases resolve from the cached document
with the default fallback.  No remote record is ever created. -/
def getUserConfig (c key : String) (default_value : Value) (st : Storage)
    (gw : GwBehavior) : OpOut Value :=
  let skey := "s_" ++ c
  match getStorageR st skey with
  | .ok data =>
      match pickOrDefault data key default_value with
      | .error e => ⟨.error e, st, []⟩
      | .ok v => ⟨.ok v, st, []⟩
  | .error _ =>
      match gw.getResult with
      | .error _ => ⟨.error "getUserConfig Failed: getOne", st, [Eff.gwGet c]⟩
      | .ok doc0 =>
        if jsTruthy doc0 then
          match putValue doc0 "_openid" .undefined true with
          | .error e => ⟨.error e, st, [Eff.gwGet c]⟩
          | .ok d1 =>
            match putValue d1 "_id" .undefined true with
            | .error e => ⟨.error e, st, [Eff.gwGet c]⟩
            | .ok doc =>
              match pickOrDefault doc key default_value with
              | .error e =>
                  ⟨.error e, setStorageW st skey doc,
                    [Eff.gwGet c, Eff.cacheWrite skey doc]⟩
              | .ok v =>
                  ⟨.ok v, setStorageW st skey doc,
                    [Eff.gwGet c, Eff.cacheWrite skey doc]⟩
        else
          let doc := freshDoc c
          match pickOrDefault doc key default_value with
          | .error e =>
              ⟨.error e, setStorageW st skey doc,
                [Eff.gwGet c, Eff.cacheWrite skey doc]⟩
          | .ok v =>
              ⟨.ok v, setStorageW st skey doc,
                [Eff.gwGet c, Eff.cacheWrite skey doc]⟩

/-- The `_getObjFromData` helper of `getUserConfigObj`: one entry per
requested key, each falling back to its own default. -/
def getObjFromData : List (String × Value) → Value → Except String (List (String × Value))
  | [], _ => .ok []
  | (k, dflt) :: rest, data => do
      let v ← pickOrDefault data k dflt
      let tail ← getObjFromData rest data
      .ok ((k, v) :: tail)

/-- Source `utils.getUserConfigObj`: batched read with per-key defaults,
hydrating exactly like `getUserConfig`. -/
def getUserConfigObj (c : String) (objv : List (String × Value)) (st : Storage)
    (gw : GwBehavior) : OpOut (List (String × Value)) :=
  let skey := "s_" ++ c
  match getStorageR st skey with
  | .ok data =>
      match getObjFromData objv data with
      | .error e => ⟨.error e, st, []⟩
      | .ok m => ⟨.ok m, st, []⟩
  | .error _ =>
      match gw.getResult with
      | .error _ => ⟨.error "getUserConfigObj Failed: getOne", st, [Eff.gwGet c]⟩
      | .ok doc0 =>
        if jsTruthy doc0 then
          match putValue doc0 "_openid" .undefined true with
          | .error e => ⟨.error e, st, [Eff.gwGet c]⟩
          | .ok d1 =>
            match putValue d1 "_id" .undefined true with
            | .error e => ⟨.error e, st, [Eff.gwGet c]⟩
            | .ok doc =>
              match getObjFromData objv doc with
              | .error e =>
                  ⟨.error e, setStorageW st skey doc,
                    [Eff.gwGet c, Eff.cacheWrite skey doc]⟩
              | .ok m =>
                  ⟨.ok m, setStorageW st skey doc,
                    [Eff.gwGet c, Eff.cacheWrite skey doc]⟩
        else
          let doc := freshDoc c
          match getObjFromData objv doc with
          | .error e =>
              ⟨.error e, setStorageW st skey doc,
                [Eff.gwGet c, Eff.cacheWrite skey doc]⟩
          | .ok m =>
              ⟨.ok m, setStorageW st skey doc,
                [Eff.gwGet c, Eff.cacheWrite skey doc]⟩

/-- Source `utils.setUserConfig`: write one config value.  Cache hit: when
the new value compares `isEqual` to the cached value and `skip_equal` is
false, resolve `false` with no I/O at all; otherwise put the value into the
snapshot and run the save.  Cache miss: fetch the record (a rejection of
that fetch is not handled in the source — modelled as a rejection), fall
back to the fresh document, and do the same comparison; when equal, the
source strips the reserved fields, caches the document and resolves `true`
without any remote write. -/
def setUserConfig (c key : String) (value : Value) (skip_equal : Bool) (st : Storage)
    (gw : GwBehavior) : OpOut Bool :=
  let skey := "s_" ++ c
  match getStorageR st skey with
  | .ok data =>
      match pickValue data key with
      | .error e => ⟨.error e, st, []⟩
      | .ok pv =>
        if skip_equal || !isEqual pv value then
          match putValue data key value false with
          | .error e => ⟨.error e, st, []⟩
          | .ok data2 =>
            let s := saveUserConfigToStorageAndCloudDB c data2 st gw
            ⟨s.res.map (fun _ => true), s.storage, s.trace⟩
        else ⟨.ok false, st, []⟩
  | .error _ =>
      match gw.getResult with
      | .error _ => ⟨.error "getOne rejected (unhandled in source)", st, [Eff.gwGet c]⟩
      | .ok doc0 =>
        let doc := if jsTruthy doc0 then doc0 else freshDoc c
        match pickValue doc key with
        | .error e => ⟨.error e, st, [Eff.gwGet c]⟩
        | .ok pv =>
          if skip_equal || !isEqual pv value then
            match putValue doc key value false with
            | .error e => ⟨.error e, st, [Eff.gwGet c]⟩
            | .ok doc2 =>
              let s := saveUserConfigToStorageAndCloudDB c doc2 st gw
              ⟨s.res.map (fun _ => true), s.storage, Eff.gwGet c :: s.trace⟩
          else
            match putValue doc "_openid" .undefined true with
            | .error e => ⟨.error e, st, [Eff.gwGet c]⟩
            | .ok d1 =>
              match putValue d1 "_id" .undefined true with
              | .error e => ⟨.error e, st, [Eff.gwGet c]⟩
              | .ok d2 =>
                  ⟨.ok true, setStorageW st skey d2,
                    [Eff.gwGet c, Eff.cacheWrite skey d2]⟩

/-- The `for key in obj` loop applying `putValue(data, key, obj[key],
{remove_undefined: false})` for every supplied pair. -/
def putAll : Value → List (String × Value) → Except String Value
  | data, [] => .ok data
  | data, (k, v) :: rest => do
      let data2 ← putValue data k v false
      putAll data2 rest

/-- `obj_keys.some(key => !isEqual(pickValue(data, key), obj[key]))`. -/
def someDiffers : Value → List (String × Value) → Except String Bool
  | _, [] => .ok false
  | data, (k, v) :: rest => do
      let pv ← pickValue data k
      if !isEqual pv v then .ok true else someDiffers data rest

/-- Source `utils.setUserConfigObj`: batched write.  The suppression test is
"at least one supplied key differs from the snapshot"; if any differs, every
supplied pair is applied and saved in one call.  On a cache miss the
reserved fields are stripped before the comparison, and when nothing
differs the document is cached locally and the call resolves `true` without
a remote write. -/
def setUserConfigObj (c : String) (objv : List (String × Value)) (skip_equal : Bool)
    (st : Storage) (gw : GwBehavior) : OpOut Bool :=
  let skey := "s_" ++ c
  match getStorageR st skey with
  | .ok data =>
      match someDiffers data objv with
      | .error e => ⟨.error e, st, []⟩
      | .ok b =>
        if skip_equal || b then
          match putAll data objv with
          | .error e => ⟨.error e, st, []⟩
          | .ok data2 =>
            let s := saveUserConfigToStorageAndCloudDB c data2 st gw
            ⟨s.res.map (fun _ => true), s.storage, s.trace⟩
        else ⟨.ok false, st, []⟩
  | .error _ =>
      match gw.getResult with
      | .error _ => ⟨.error "getOne rejected (unhandled in source)", st, [Eff.gwGet c]⟩
      | .ok doc0 =>
        let doc := if jsTruthy doc0 then doc0 else freshDoc c
        match putValue doc "_openid" .undefined true with
        | .error e => ⟨.error e, st, [Eff.gwGet c]⟩
        | .ok d1 =>
          match putValue d1 "_id" .undefined true with
          | .error e => ⟨.error e, st, [Eff.gwGet c]⟩
          | .ok d2 =>
            match someDiffers d2 objv with
            | .error e => ⟨.error e, st, [Eff.gwGet c]⟩
            | .ok b =>
              if skip_equal || b then
                match putAll d2 objv with
                | .error e => ⟨.error e, st, [Eff.gwGet c]⟩
                | .ok d3 =>
                  let s := saveUserConfigToStorageAndCloudDB c d3 st gw
                  ⟨s.res.map (fun _ => true), s.storage, Eff.gwGet c :: s.trace⟩
              else
                  ⟨.ok true, setStorageW st skey d2,
                    [Eff.gwGet c, Eff.cacheWrite skey d2]⟩

/-- Source `utils.flushUserConfigBuffer`: the staged flat path-to-value map
for namespace `c` (`none` when `_user_config_buffer[c]` is absent).  An
absent or empty buffer is a no-op with no I/O.  Otherwise the namespace is
hydrated like the write operations, every staged pair is applied, and the
save always runs — there is no equality suppression ("此函数没有 skip_equal
功能，总是会写入数据库").  The buffer is cleared only when the save
succeeds.  Returns the operation outcome and the buffer afterwards. -/
def flushUserConfigBuffer (c : String) (buffer : Option (List (String × Value)))
    (st : Storage) (gw : GwBehavior) :
    OpOut Unit × Option (List (String × Value)) :=
  let skey := "s_" ++ c
  match buffer with
  | none => (⟨.ok (), st, []⟩, none)
  | some fs =>
    if fs.isEmpty then (⟨.ok (), st, []⟩, some fs)
    else
      match getStorageR st skey with
      | .ok data =>
          (match putAll data fs with
           | .error e => (⟨.error e, st, []⟩, some fs)
           | .ok data2 =>
             let s := saveUserConfigToStorageAndCloudDB c data2 st gw
             match s.res with
             | .ok _ => (⟨.ok (), s.storage, s.trace⟩, none)
             | .error e => (⟨.error e, s.storage, s.trace⟩, some fs))
      | .error _ =>
          match gw.getResult with
          | .error _ =>
              (⟨.error "getOne rejected (unhandled in source)", st, [Eff.gwGet c]⟩, some fs)
          | .ok doc0 =>
            let doc := if jsTruthy doc0 then doc0 else freshDoc c
            match putAll doc fs with
            | .error e => (⟨.error e, st, [Eff.gwGet c]⟩, some fs)
            | .ok doc2 =>
              let s := saveUserConfigToStorageAndCloudDB c doc2 st gw
              match s.res with
              | .ok _ => (⟨.ok (), s.storage, Eff.gwGet c :: s.trace⟩, none)
              | .error e => (⟨.error e, s.storage, Eff.gwGet c :: s.trace⟩, some fs)

/-- Source `utils.pushUserConfig`: append to an array-valued config field.
Reads the field via `getUserConfig`; an absent field is an empty array.
With `allow_repeat=false`, a match (by `_id` for objects, by `includes`
otherwise) resolves the array unchanged without any write.  Otherwise the
value is pushed (or unshifted), the array is truncated to `limit` from the
end opposite the insertion end, and the result is written back through
`setUserConfig`.  `limit` is a JS number: `limit && ...` is falsy for 0, so
a zero limit disables truncation. -/
def pushUserConfig (c key : String) (value : Value) (allow_repeat : Bool)
    (limit : Option Nat) (prepend : Bool) (st : Storage) (gw : GwBehavior) :
    OpOut Value :=
  let g := getUserConfig c key .null st gw
  match g.res with
  | .error _ => ⟨.error "pushUserConfig Failed: getUserConfig", g.storage, g.trace⟩
  | .ok data0 =>
    let data := if isNone data0 then Value.arr [] else data0
    match data with
    | .arr xs =>
      (match (if !allow_repeat && isObject value then includesDoc xs value else .ok false) with
       | .error _ => ⟨.error "pushUserConfig Failed: getUserConfig", g.storage, g.trace⟩
       | .ok dupById =>
         if !allow_repeat && (dupById || jsIncludes xs value) then
           ⟨.ok (Value.arr xs), g.storage, g.trace⟩
         else
           let xs1 := if prepend then value :: xs else xs ++ [value]
           let xs2 :=
             match limit with
             | some l =>
                 if l != 0 && xs1.length > l then
                   (if prepend then xs1.take l else xs1.drop (xs1.length - l))
                 else xs1
             | none => xs1
           let s := setUserConfig c key (Value.arr xs2) false g.storage gw
           match s.res with
           | .ok _ => ⟨.ok (Value.arr xs2), s.storage, g.trace ++ s.trace⟩
           | .error _ =>
               ⟨.error "pushUserConfig Failed: setUserConfig", s.storage, g.trace ++ s.trace⟩)
    | _ => ⟨.error "pushUserConfig Failed: not an array", g.storage, g.trace⟩

/-- The reserved-field strip the engine performs before caching and before
every remote write: `putValue(doc, '_openid', undefined)` followed by
`putValue(doc, '_id', undefined)`, i.e. two top-level deletes. -/
def stripReserved (doc : Value) : Value :=
  delProp (delProp doc "_openid") "_id"

/-- A payload that carries neither reserved field at top level. -/
def cleanDoc : Value → Bool
  | .obj fs => fs.all (fun kv => !(kv.1 == "_id") && !(kv.1 == "_openid"))
  | _ => true

/-- Every write payload of the effect is free of the reserved fields. -/
def effClean : Eff → Bool
  | .cacheWrite _ v => cleanDoc v
  | .gwUpdate _ v => cleanDoc v
  | .gwAdd _ v => cleanDoc v
  | .gwGet _ => true

/-- Every effect of the trace is clean. -/
def cleanTrace (tr : List Eff) : Bool :=
  tr.all effClean

/-! ## Basic lemmas about the path accessor -/

/-- Property reads succeed on every root other than `undefined`/`null`. -/
theorem getProp_ok (v : Value) (k : String) (h : isNone v = false) :
    ∃ w, getProp v k = .ok w := by
  cases v <;> simp_all [getProp, isNone]

/-- The pick walk succeeds whenever it starts from a non-None value. -/
theorem pickWalk_ok (segs : List String) :
    ∀ v : Value, isNone v = false → ∃ w, pickWalk v segs = .ok w := by
  induction segs with
  | nil => intro v _; exact ⟨v, rfl⟩
  | cons k rest ih =>
      intro v hv
      obtain ⟨w, hw⟩ := getProp_ok v k hv
      by_cases hn : isNone w = true
      · exact ⟨w, by simp [pickWalk, hw, hn, bind, Except.bind]⟩
      · obtain ⟨u, hu⟩ := ih w (by simpa using hn)
        exact ⟨u, by simp [pickWalk, hw, hn, hu, bind, Except.bind]⟩

/-- Reading back the key just set yields the value just stored. -/
theorem objGet_objSet_self (fs : List (String × Value)) (k : String) (v : Value) :
    objGet (objSet fs k v) k = v := by
  induction fs with
  | nil => simp [objGet, objSet]
  | cons kv rest ih =>
      obtain ⟨k1, v1⟩ := kv
      by_cases h : k1 = k <;> simp [objGet, objSet, h, ih]

/-- When the stored value is not the deletion sentinel, `putSegs` on an
object root returns an object. -/
theorem putSegs_shape (segs : List String) (fs : List (String × Value)) (v : Value)
    (ru : Bool) (out : Value) (hv : isUndefined v = false)
    (h : putSegs (.obj fs) segs v ru = .ok out) : ∃ gs, out = .obj gs := by
  match segs with
  | [] => simp [putSegs] at h
  | [k] =>
      simp [putSegs, putLeaf, hv, setProp] at h
      exact ⟨_, h.symm⟩
  | k :: k2 :: rest =>
      simp only [putSegs, getProp, bind, Except.bind] at h
      repeat' split at h
      all_goals try simp_all [setProp]
      all_goals (subst h; exact ⟨_, rfl⟩)

/-- A value satisfying `isObject` is an object node. -/
theorem isObject_obj (w : Value) (h : isObject w = true) : ∃ gs, w = .obj gs := by
  cases w <;> simp_all [isObject]

/-- Core of the path round-trip: after a successful dotted-path store,
walking the same segments reads back the stored value. -/
theorem putSegs_pickWalk : ∀ (segs : List String) (fs : List (String × Value)) (v : Value)
    (ru : Bool) (out : Value), isUndefined v = false →
    putSegs (.obj fs) segs v ru = .ok out → pickWalk out segs = .ok v
  | [], _, _, _, _, _, h => by simp [putSegs] at h
  | [k], fs, v, ru, out, hv, h => by
      simp [putSegs, putLeaf, hv, setProp] at h
      subst h
      by_cases hn : isNone v = true <;>
        simp [pickWalk, getProp, objGet_objSet_self, bind, Except.bind, hn]
  | k :: k2 :: rest, fs, v, ru, out, hv, h => by
      by_cases hno : isNone (objGet fs k) = true
      · cases heq : putSegs (Value.obj []) (k2 :: rest) v ru with
        | error e => simp [putSegs, getProp, bind, Except.bind, hno, heq] at h
        | ok v2 =>
            simp [putSegs, getProp, bind, Except.bind, hno, heq, setProp] at h
            subst h
            obtain ⟨hs, hshape⟩ := putSegs_shape (k2 :: rest) [] v ru v2 hv heq
            have hrec := putSegs_pickWalk (k2 :: rest) [] v ru v2 hv heq
            subst hshape
            simp only [pickWalk, getProp, bind, Except.bind, objGet_objSet_self]
            simpa [isNone] using hrec
      · by_cases hob : isObject (objGet fs k) = true
        · obtain ⟨gs, hg⟩ := isObject_obj _ hob
          cases heq : putSegs (objGet fs k) (k2 :: rest) v ru with
          | error e => simp [putSegs, getProp, bind, Except.bind, hno, hob, heq] at h
          | ok v2 =>
              simp [putSegs, getProp, bind, Except.bind, hno, hob, heq, setProp] at h
              subst h
              rw [hg] at heq
              obtain ⟨hs, hshape⟩ := putSegs_shape (k2 :: rest) gs v ru v2 hv heq
              have hrec := putSegs_pickWalk (k2 :: rest) gs v ru v2 hv heq
              subst hshape
              simp only [pickWalk, getProp, bind, Except.bind, objGet_objSet_self]
              simpa [isNone] using hrec
        · simp [putSegs, getProp, bind, Except.bind, hno, hob] at h

/-! ## Claims C8, C9, C10 -/

/-- C8 counterexample: `pickValue` is not total on an absent root — reading
any path of `undefined` raises a TypeError — and a null intermediate is
surfaced as `null`, not `undefined`.  This refutes "for every container
(including an empty or absent root container) ... never raises an error and
returns undefined the instant an intermediate segment is missing or holds a
non-traversable value". -/
theorem pickValue_absent_root_raises :
    (∃ e, pickValue Value.undefined "a" = .error e) ∧
      pickValue (Value.obj [("a", Value.null)]) "a.b" = .ok Value.null ∧
      Value.null ≠ Value.undefined :=
  ⟨⟨_, rfl⟩, rfl, fun h => Value.noConfusion h⟩

/-- C8 (amended): for every root container other than `undefined`/`null`
and every dotted path, `pickValue` never raises; it resolves to some value
(`undefined` when a segment is missing or a non-container intermediate is
hit, the encountered `null` itself when an intermediate holds null). -/
theorem pickValue_total_of_root_not_none (v : Value) (key : String)
    (h : isNone v = false) : ∃ w, pickValue v key = .ok w := by
  unfold pickValue
  by_cases hc : hasDot key = true
  · simpa [hc] using pickWalk_ok (splitPath key) v h
  · simpa [hc] using getProp_ok v key h

/-- Witness for the amended C8 theorem at a concrete input. -/
theorem pickValue_total_of_root_not_none_witness :
    isNone (Value.obj []) = false ∧ ∃ w, pickValue (Value.obj []) "a.b.c" = .ok w :=
  ⟨rfl, pickValue_total_of_root_not_none (Value.obj []) "a.b.c" rfl⟩

/-- C9: for every object container, every dotted path and every value other
than the `undefined` sentinel, if `putValue` succeeds then `pickValue` at
the same path on the result returns exactly the stored value. -/
theorem putValue_pickValue_roundtrip (fs : List (String × Value)) (key : String)
    (v : Value) (ru : Bool) (out : Value) (hv : isUndefined v = false)
    (h : putValue (.obj fs) key v ru = .ok out) : pickValue out key = .ok v := by
  unfold putValue at h
  by_cases hc : hasDot key = true
  · simp only [hc, if_true, isNone, isObject, if_false, Bool.false_eq_true, ite_false,
      ite_true] at h
    simpa [pickValue, hc] using putSegs_pickWalk (splitPath key) fs v ru out hv h
  · simp [hc, isNone, putLeaf, hv, setProp] at h
    subst h
    simp [pickValue, hc, getProp, objGet_objSet_self]

/-- Witness for the C9 round-trip at a concrete input. -/
theorem putValue_pickValue_roundtrip_witness :
    isUndefined (Value.num 7) = false ∧
      pickValue (Value.obj [("a", Value.obj [("b", Value.num 7)])]) "a.b" =
        .ok (Value.num 7) :=
  ⟨rfl, putValue_pickValue_roundtrip [] "a.b" (Value.num 7) true
    (Value.obj [("a", Value.obj [("b", Value.num 7)])]) rfl rfl⟩

/-- C10: when the hydrated snapshot stores `null` at the requested path, or
stores nothing there at all, `getUserConfig` resolves the supplied default —
at the read interface an explicitly stored null is indistinguishable from
an unset field, and no I/O happens on a cache hit. -/
theorem getUserConfig_null_reads_as_default (c key : String) (d : Value) (st : Storage)
    (gw : GwBehavior) (data : Value)
    (hst : storageGet st ("s_" ++ c) = some data) (ht : jsTruthy data = true)
    (hpick : pickValue data key = .ok Value.null ∨ pickValue data key = .ok Value.undefined) :
    getUserConfig c key d st gw = ⟨.ok d, st, []⟩ := by
  rcases hpick with hp | hp <;>
    simp [getUserConfig, getStorageR, hst, ht, pickOrDefault, hp, bind, Except.bind, isNone]

/-- Witness: stored null and absent path both read back as the default. -/
theorem getUserConfig_null_reads_as_default_witness :
    getUserConfig "x" "a" (Value.str "D") [("s_x", Value.obj [("a", Value.null)])]
        ⟨.ok Value.null, .ok 1, .ok "id"⟩ =
      ⟨.ok (Value.str "D"), [("s_x", Value.obj [("a", Value.null)])], []⟩ ∧
    getUserConfig "x" "b" (Value.str "D") [("s_x", Value.obj [("a", Value.null)])]
        ⟨.ok Value.null, .ok 1, .ok "id"⟩ =
      ⟨.ok (Value.str "D"), [("s_x", Value.obj [("a", Value.null)])], []⟩ :=
  ⟨getUserConfig_null_reads_as_default "x" "a" (Value.str "D") _ _
      (Value.obj [("a", Value.null)]) rfl rfl (Or.inl rfl),
    getUserConfig_null_reads_as_default "x" "b" (Value.str "D") _ _
      (Value.obj [("a", Value.null)]) rfl rfl (Or.inr rfl)⟩

/-! ## Deep equality is reflexive on well-formed values -/

/-- Looking up a key of a duplicate-free association list returns the value
it binds. -/
theorem nodupKeys_objGet (fs : List (String × Value)) (k : String) (v : Value)
    (hnd : nodupKeys fs = true) (hmem : (k, v) ∈ fs) : objGet fs k = v := by
  induction fs with
  | nil => cases hmem
  | cons kv rest ih =>
      obtain ⟨k1, v1⟩ := kv
      simp only [nodupKeys, Bool.and_eq_true, Bool.not_eq_true'] at hnd
      rcases List.mem_cons.mp hmem with h | h
      · obtain ⟨h1, h2⟩ := Prod.mk.injEq .. ▸ h
        subst h1; subst h2
        simp [objGet]
      · have hk : ¬ k1 = k := by
          intro he
          subst he
          have : rest.any (fun kv => kv.1 == k1) = true :=
            List.any_eq_true.mpr ⟨(k1, v), h, by simp⟩
          simp [this] at hnd
        simp [objGet, hk, ih hnd.2 h]

/-- Bound values of a well-formed field list are well-formed. -/
theorem wfFields_mem (fs : List (String × Value)) (hw : wfFields fs = true)
    (kv : String × Value) (h : kv ∈ fs) : wfValue kv.2 = true := by
  induction fs with
  | nil => cases h
  | cons kv1 rest ih =>
      obtain ⟨k1, v1⟩ := kv1
      simp only [wfFields, Bool.and_eq_true] at hw
      rcases List.mem_cons.mp h with h1 | h1
      · subst h1; exact hw.1
      · exact ih hw.2 h1

/-- Elements of a well-formed list are well-formed. -/
theorem wfList_mem (xs : List Value) (hw : wfList xs = true)
    (x : Value) (h : x ∈ xs) : wfValue x = true := by
  induction xs with
  | nil => cases h
  | cons y rest ih =>
      simp only [wfList, Bool.and_eq_true] at hw
      rcases List.mem_cons.mp h with h1 | h1
      · subst h1; exact hw.1
      · exact ih hw.2 h1

mutual

/-- Source deep equality is reflexive on values a JavaScript run can build
(distinct keys at every level). -/
theorem isEqual_refl : ∀ (a : Value), wfValue a = true → isEqual a a = true
  | .undefined, _ => by simp [isEqual, jsStrictEq]
  | .null, _ => by simp [isEqual, jsStrictEq]
  | .bool b, _ => by simp [isEqual, jsStrictEq]
  | .num n, _ => by simp [isEqual, jsStrictEq]
  | .str s, _ => by simp [isEqual, jsStrictEq]
  | .arr xs, h => by
      have hl := isEqualList_refl xs (by simpa [wfValue] using h)
      simp [isEqual, jsStrictEq, isNone, hl]
  | .obj fs, h => by
      have h2 : nodupKeys fs = true ∧ wfFields fs = true := by
        simpa [wfValue] using h
      have hf := isEqualFields_mem fs fs (fun kv hm =>
        ⟨nodupKeys_objGet fs kv.1 kv.2 h2.1 hm, wfFields_mem fs h2.2 kv hm⟩)
      simp [isEqual, jsStrictEq, isNone, hf]
termination_by a _ => sizeOf a

/-- The array loop of `isEqual` is reflexive elementwise. -/
theorem isEqualList_refl : ∀ (xs : List Value), wfList xs = true → isEqualList xs xs = true
  | [], _ => by simp [isEqualList]
  | x :: xs, h => by
      have h2 : wfValue x = true ∧ wfList xs = true := by
        simpa [wfList] using h
      simp [isEqualList, isEqual_refl x h2.1, isEqualList_refl xs h2.2]
termination_by xs _ => sizeOf xs

/-- The object loop of `isEqual` succeeds when every key of the left operand
reads back its own well-formed value on the right. -/
theorem isEqualFields_mem : ∀ (fa fb : List (String × Value)),
    (∀ kv : String × Value, kv ∈ fa → objGet fb kv.1 = kv.2 ∧ wfValue kv.2 = true) →
    isEqualFields fa fb = true
  | [], _, _ => by simp [isEqualFields]
  | (k, va) :: rest, fb, h => by
      have h1 := h (k, va) (List.mem_cons_self _ _)
      simp [isEqualFields, h1.1, isEqual_refl va h1.2,
        isEqualFields_mem rest fb (fun kv hm => h kv (List.mem_cons_of_mem _ hm))]
termination_by fa _ _ => sizeOf fa

end

/-! ## Reads preserve well-formedness -/

/-- Values looked up in a well-formed field list are well-formed. -/
theorem objGet_wf (fs : List (String × Value)) (k : String)
    (h : wfFields fs = true) : wfValue (objGet fs k) = true := by
  induction fs with
  | nil => simp [objGet, wfValue]
  | cons kv rest ih =>
      obtain ⟨k1, v1⟩ := kv
      simp only [wfFields, Bool.and_eq_true] at h
      by_cases hk : k1 = k <;> simp [objGet, hk, h.1, ih h.2]

/-- Indexing a well-formed array yields a well-formed value. -/
theorem wfList_getD (xs : List Value) (i : Nat) (h : wfList xs = true) :
    wfValue (xs.getD i .undefined) = true := by
  induction xs generalizing i with
  | nil => simp [List.getD, wfValue]
  | cons x rest ih =>
      simp only [wfList, Bool.and_eq_true] at h
      cases i with
      | zero => simpa [List.getD] using h.1
      | succ j => simpa [List.getD] using ih j h.2

/-- A successful property read of a well-formed value is well-formed. -/
theorem getProp_wf (v : Value) (k : String) (w : Value) (hw : wfValue v = true)
    (h : getProp v k = .ok w) : wfValue w = true := by
  cases v with
  | undefined => simp [getProp] at h
  | null => simp [getProp] at h
  | bool b => simp [getProp] at h; subst h; rfl
  | num n => simp [getProp] at h; subst h; rfl
  | str s =>
      simp only [getProp, Except.ok.injEq] at h
      subst h
      split <;> try rfl
      split <;> try rfl
      split <;> rfl
  | arr xs =>
      simp only [getProp, Except.ok.injEq] at h
      subst h
      split
      · rfl
      · split
        · exact wfList_getD xs _ (by simpa [wfValue] using hw)
        · rfl
  | obj fs =>
      simp only [getProp, Except.ok.injEq] at h
      subst h
      have h2 : nodupKeys fs = true ∧ wfFields fs = true := by
        simpa [wfValue] using hw
      exact objGet_wf fs k h2.2

/-- The pick walk preserves well-formedness. -/
theorem pickWalk_wf (segs : List String) :
    ∀ (v w : Value), wfValue v = true → pickWalk v segs = .ok w → wfValue w = true := by
  induction segs with
  | nil =>
      intro v w hv h
      simp [pickWalk] at h
      subst h; exact hv
  | cons k rest ih =>
      intro v w hv h
      simp only [pickWalk, bind, Except.bind] at h
      cases hg : getProp v k with
      | error e => rw [hg] at h; simp at h
      | ok u =>
          rw [hg] at h
          have hu : wfValue u = true := getProp_wf v k u hv hg
          by_cases hn : isNone u = true
          · simp [hn] at h; subst h; exact hu
          · simp [hn] at h; exact ih u w hu h

/-- A successful `pickValue` from a well-formed container is well-formed. -/
theorem pickValue_wf (v : Value) (key : String) (w : Value) (hw : wfValue v = true)
    (h : pickValue v key = .ok w) : wfValue w = true := by
  unfold pickValue at h
  by_cases hc : hasDot key = true
  · rw [if_pos hc] at h; exact pickWalk_wf (splitPath key) v w hw h
  · rw [if_neg hc] at h; exact getProp_wf v key w hw h

/-! ## Claims C1 and C2 -/

/-- C1 counterexample: appending a record with the same reserved identifier
but refreshed content under allowDuplicates=false resolves the OLD array
unchanged (title still "A"), performs no write at all, and the result is
not the claimed refreshed array. -/
theorem pushUserConfig_dedup_counterexample :
    pushUserConfig "x" "arr" (Value.obj [("_id", Value.str "x"), ("title", Value.str "B")])
        false none false
        [("s_x", Value.obj [("arr",
          Value.arr [Value.obj [("_id", Value.str "x"), ("title", Value.str "A")]])])]
        ⟨.ok .null, .ok 1, .ok "id"⟩ =
      ⟨.ok (Value.arr [Value.obj [("_id", Value.str "x"), ("title", Value.str "A")]]),
        [("s_x", Value.obj [("arr",
          Value.arr [Value.obj [("_id", Value.str "x"), ("title", Value.str "A")]])])],
        []⟩ ∧
    Value.arr [Value.obj [("_id", Value.str "x"), ("title", Value.str "A")]] ≠
      Value.arr [Value.obj [("_id", Value.str "x"), ("title", Value.str "B")]] := by
  refine ⟨rfl, fun h => ?_⟩
  have h2 := congrArg (fun v =>
    match v with
    | Value.arr (Value.obj fs :: _) => objGet fs "title"
    | _ => Value.undefined) h
  simp only [objGet] at h2
  have h3 := congrArg (fun v => match v with | Value.str s => s | _ => "") h2
  simp only at h3
  exact absurd (congrArg String.data h3) (by simp)

/-- C1 (amended): with allowDuplicates=false and an element carrying the
same reserved identifier already present, pushUserConfig is a true no-op:
it resolves the existing array unchanged and performs no I/O whatsoever
(matching the source doc "若数组中已有该元素时，不会再添加"). -/
theorem pushUserConfig_dedup_is_noop (c key : String) (value : Value) (lim : Option Nat)
    (pre : Bool) (st : Storage) (gw : GwBehavior) (data : Value) (xs : List Value)
    (hst : storageGet st ("s_" ++ c) = some data) (ht : jsTruthy data = true)
    (hpick : pickValue data key = .ok (Value.arr xs))
    (hobj : isObject value = true) (hdup : includesDoc xs value = .ok true) :
    pushUserConfig c key value false lim pre st gw = ⟨.ok (Value.arr xs), st, []⟩ := by
  simp [pushUserConfig, getUserConfig, getStorageR, hst, ht, pickOrDefault, hpick,
    bind, Except.bind, isNone, hobj, hdup]

/-- Witness for the amended C1 no-op theorem at a concrete input. -/
theorem pushUserConfig_dedup_is_noop_witness :
    pushUserConfig "x" "arr" (Value.obj [("_id", Value.str "x"), ("title", Value.str "B")])
        false none false
        [("s_x", Value.obj [("arr",
          Value.arr [Value.obj [("_id", Value.str "x"), ("title", Value.str "A")]])])]
        ⟨.ok .null, .ok 0, .ok "id"⟩ =
      ⟨.ok (Value.arr [Value.obj [("_id", Value.str "x"), ("title", Value.str "A")]]),
        [("s_x", Value.obj [("arr",
          Value.arr [Value.obj [("_id", Value.str "x"), ("title", Value.str "A")]])])],
        []⟩ :=
  pushUserConfig_dedup_is_noop "x" "arr"
    (Value.obj [("_id", Value.str "x"), ("title", Value.str "B")]) none false _ _
    (Value.obj [("arr", Value.arr [Value.obj [("_id", Value.str "x"), ("title", Value.str "A")]])])
    [Value.obj [("_id", Value.str "x"), ("title", Value.str "A")]]
    rfl rfl rfl rfl rfl

/-- C2 counterexample: with a hydrated empty snapshot, readField of an
absent path resolves the default null, yet writing that same resolved value
back issues a remote-gateway write and resolves "changed" — refuting "for
every value v just returned by readField, writeField makes zero
remote-gateway calls and returns unchanged". -/
theorem setUserConfig_write_suppression_counterexample :
    getUserConfig "x" "a" Value.null [("s_x", Value.obj [])] ⟨.ok .null, .ok 1, .ok "id"⟩ =
      ⟨.ok Value.null, [("s_x", Value.obj [])], []⟩ ∧
    (setUserConfig "x" "a" Value.null false [("s_x", Value.obj [])]
        ⟨.ok .null, .ok 1, .ok "id"⟩).res = .ok true ∧
    gatewayCalls (setUserConfig "x" "a" Value.null false [("s_x", Value.obj [])]
        ⟨.ok .null, .ok 1, .ok "id"⟩).trace =
      [Eff.gwUpdate "x" (Value.obj [("a", Value.null)])] :=
  ⟨rfl, rfl, rfl⟩

/-- C2 (amended): when the new value is deep-structurally equal to the
well-formed value cached at the path, writeField performs no I/O at all and
resolves "unchanged" (false); and whenever the cached lookup itself yields a
non-None value — so readField resolves the cached value rather than a
default — writing back exactly what readField returned makes zero
remote-gateway calls and resolves "unchanged". -/
theorem setUserConfig_write_suppression (c key : String) (v d : Value) (st : Storage)
    (gw : GwBehavior) (data pv : Value)
    (hst : storageGet st ("s_" ++ c) = some data) (ht : jsTruthy data = true)
    (hwf : wfValue data = true) (hpick : pickValue data key = .ok pv) :
    (pv = v → setUserConfig c key v false st gw = ⟨.ok false, st, []⟩) ∧
    (isNone pv = false →
      getUserConfig c key d st gw = ⟨.ok pv, st, []⟩ ∧
      setUserConfig c key pv false st gw = ⟨.ok false, st, []⟩) := by
  have hwpv : wfValue pv = true := pickValue_wf data key pv hwf hpick
  have heq : isEqual pv pv = true := isEqual_refl pv hwpv
  refine ⟨?_, fun hn => ⟨?_, ?_⟩⟩
  · rintro rfl
    simp [setUserConfig, getStorageR, hst, ht, hpick, heq, bind, Except.bind]
  · simp [getUserConfig, getStorageR, hst, ht, pickOrDefault, hpick, hn, bind, Except.bind]
  · simp [setUserConfig, getStorageR, hst, ht, hpick, heq, bind, Except.bind]

/-- Witness for the amended C2 suppression theorem at a concrete input. -/
theorem setUserConfig_write_suppression_witness :
    setUserConfig "x" "a" (Value.num 1) false [("s_x", Value.obj [("a", Value.num 1)])]
        ⟨.ok .null, .ok 1, .ok "id"⟩ =
      ⟨.ok false, [("s_x", Value.obj [("a", Value.num 1)])], []⟩ :=
  (setUserConfig_write_suppression "x" "a" (Value.num 1) Value.null
      [("s_x", Value.obj [("a", Value.num 1)])] ⟨.ok .null, .ok 1, .ok "id"⟩
      (Value.obj [("a", Value.num 1)]) (Value.num 1) rfl rfl rfl rfl).1 rfl

/-! ## The reserved-field strip, and claims C4, C5, C7 -/

/-- Deleting a property does not change None-ness. -/
theorem isNone_delProp (v : Value) (k : String) : isNone (delProp v k) = isNone v := by
  cases v <;> rfl

/-- The two strip calls of the engine are plain top-level deletes on any
non-None document. -/
theorem putValue_strip_eq (v : Value) (k : String) (hk : hasDot k = false)
    (h : isNone v = false) : putValue v k .undefined true = .ok (delProp v k) := by
  simp [putValue, hk, h, putLeaf, isUndefined]

/-- The fresh document is never None. -/
theorem isNone_freshDoc (c : String) : isNone (freshDoc c) = false := by
  unfold freshDoc
  split <;> rfl

/-- The split of a path is never the empty list. -/
theorem splitDots_ne_nil (cs : List Char) : splitDots cs ≠ [] := by
  induction cs with
  | nil => simp [splitDots]
  | cons c cs ih =>
      by_cases h : (c == '.') = true
      · simp [splitDots, h]
      · cases hs : splitDots cs with
        | nil => exact absurd hs ih
        | cons s rest => simp [splitDots, h, hs]

/-- Every pick from the empty object resolves `undefined`. -/
theorem pickValue_empty_obj (key : String) : pickValue (Value.obj []) key = .ok Value.undefined := by
  unfold pickValue
  by_cases hc : hasDot key = true
  · rw [if_pos hc]
    cases hsp : splitPath key with
    | nil => exact absurd hsp (splitDots_ne_nil key.toList)
    | cons k rest => simp [pickWalk, getProp, objGet, bind, Except.bind, isNone]
  · rw [if_neg hc]
    simp [getProp, objGet]

/-- C4 counterexample: after a failed remote update the operation rejects,
but the local cache now holds exactly the new (stripped) document — the
value whose remote write failed — not the pre-write value.  This refutes
"the cache does not keep reflecting the value whose remote write failed". -/
theorem save_remote_failure_counterexample :
    (saveUserConfigToStorageAndCloudDB "x" (Value.obj [("a", Value.num 1)])
        [("s_x", Value.obj [("a", Value.num 0)])] ⟨.ok .null, .error "boom", .ok "id"⟩).res =
      .error "_saveUserConfigToStorageAndCloudDB Failed: updateMatch" ∧
    storageGet (saveUserConfigToStorageAndCloudDB "x" (Value.obj [("a", Value.num 1)])
        [("s_x", Value.obj [("a", Value.num 0)])]
        ⟨.ok .null, .error "boom", .ok "id"⟩).storage "s_x" =
      some (Value.obj [("a", Value.num 1)]) ∧
    Value.obj [("a", Value.num 1)] ≠ Value.obj [("a", Value.num 0)] := by
  refine ⟨rfl, rfl, fun h => ?_⟩
  have h2 := congrArg (fun v =>
    match v with
    | Value.obj [(_, Value.num n)] => n
    | _ => (37 : Int)) h
  exact absurd h2 (by decide)

/-- C4 (amended): when the remote update fails after the local snapshot was
persisted, the operation is surfaced as a rejection, and the local cache is
left FULLY updated with the stripped new document: it keeps reflecting the
value whose remote write failed (local-first ordering), and is in
particular never partially updated. -/
theorem save_remote_failure_keeps_local (c : String) (doc : Value) (st : Storage)
    (gw : GwBehavior) (e : String) (hdoc : isNone doc = false)
    (hupd : gw.updateResult = .error e) :
    saveUserConfigToStorageAndCloudDB c doc st gw =
      ⟨.error "_saveUserConfigToStorageAndCloudDB Failed: updateMatch",
        setStorageW st ("s_" ++ c) (stripReserved doc),
        [.cacheWrite ("s_" ++ c) (stripReserved doc),
         .gwUpdate c (stripReserved doc)]⟩ := by
  have h1 := putValue_strip_eq doc "_openid" rfl hdoc
  have h2 := putValue_strip_eq (delProp doc "_openid") "_id" rfl
    (by rw [isNone_delProp]; exact hdoc)
  simp [saveUserConfigToStorageAndCloudDB, h1, h2, hupd, stripReserved]

/-- Witness for the amended C4 theorem at a concrete input. -/
theorem save_remote_failure_keeps_local_witness :
    saveUserConfigToStorageAndCloudDB "x" (Value.obj [("a", Value.num 1)])
        [("s_x", Value.obj [("a", Value.num 0)])] ⟨.ok .null, .error "boom", .ok "id"⟩ =
      ⟨.error "_saveUserConfigToStorageAndCloudDB Failed: updateMatch",
        setStorageW [("s_x", Value.obj [("a", Value.num 0)])] ("s_" ++ "x")
          (stripReserved (Value.obj [("a", Value.num 1)])),
        [.cacheWrite ("s_" ++ "x") (stripReserved (Value.obj [("a", Value.num 1)])),
         .gwUpdate "x" (stripReserved (Value.obj [("a", Value.num 1)]))]⟩ :=
  save_remote_failure_keeps_local "x" (Value.obj [("a", Value.num 1)])
    [("s_x", Value.obj [("a", Value.num 0)])] ⟨.ok .null, .error "boom", .ok "id"⟩
    "boom" rfl rfl

/-- C5 counterexample: for a fresh namespace ending in `_user` the engine
persists `{is_admin: false}`, not the empty structure `{}`, and a read of
the `is_admin` path resolves `false` rather than the supplied default. -/
theorem getUserConfig_fresh_counterexample :
    (getUserConfig "admin_user" "k" Value.null [] ⟨.ok .null, .ok 0, .ok "id"⟩).storage =
      [("s_admin_user", Value.obj [("is_admin", Value.bool false)])] ∧
    Value.obj [("is_admin", Value.bool false)] ≠ Value.obj [] ∧
    (getUserConfig "admin_user" "is_admin" (Value.str "D") []
        ⟨.ok .null, .ok 0, .ok "id"⟩).res = .ok (Value.bool false) ∧
    Value.bool false ≠ Value.str "D" := by
  refine ⟨rfl, fun h => ?_, rfl, fun h => Value.noConfusion h⟩
  have h2 := congrArg (fun v =>
    match v with
    | Value.obj fs => fs.length
    | _ => 37) h
  exact absurd h2 (by decide)

/-- C5 (amended): for a fresh namespace with no record, readField issues
exactly one gateway fetch and creates no record; it persists the fresh
document as the snapshot and resolves from it with the default fallback.
Unless the namespace ends in `_user`, the fresh document is the empty
structure `{}` and the call resolves the supplied default. -/
theorem getUserConfig_fresh (c key : String) (d : Value) (st : Storage) (gw : GwBehavior)
    (hfresh : storageGet st ("s_" ++ c) = none) (habs : gw.getResult = .ok Value.null) :
    (∃ w, getUserConfig c key d st gw =
        ⟨.ok w, setStorageW st ("s_" ++ c) (freshDoc c),
          [.gwGet c, .cacheWrite ("s_" ++ c) (freshDoc c)]⟩) ∧
    gatewayCalls (getUserConfig c key d st gw).trace = [.gwGet c] ∧
    ("_user".toList.isSuffixOf c.toList = false →
      freshDoc c = Value.obj [] ∧ (getUserConfig c key d st gw).res = .ok d) := by
  obtain ⟨pv, hpv⟩ := pickValue_total_of_root_not_none (freshDoc c) key (isNone_freshDoc c)
  have hmain : getUserConfig c key d st gw =
      ⟨.ok (if isNone pv = true then d else pv), setStorageW st ("s_" ++ c) (freshDoc c),
        [.gwGet c, .cacheWrite ("s_" ++ c) (freshDoc c)]⟩ := by
    simp [getUserConfig, getStorageR, hfresh, habs, jsTruthy, pickOrDefault, hpv,
      bind, Except.bind]
  refine ⟨⟨_, hmain⟩, by simp [hmain, gatewayCalls], fun hsuf => ?_⟩
  have hfd : freshDoc c = Value.obj [] := by unfold freshDoc; rw [hsuf]; rfl
  have hpv2 : pv = Value.undefined := by
    rw [hfd] at hpv
    have := pickValue_empty_obj key
    rw [this] at hpv
    exact (Except.ok.injEq .. ▸ hpv).symm
  subst hpv2
  exact ⟨hfd, by simp [hmain, isNone]⟩

/-- Witness for the amended C5 theorem at a concrete input. -/
theorem getUserConfig_fresh_witness :
    gatewayCalls (getUserConfig "cfg" "a.b" (Value.str "D") []
        ⟨.ok .null, .ok 0, .ok "id"⟩).trace = [.gwGet "cfg"] ∧
    (getUserConfig "cfg" "a.b" (Value.str "D") []
        ⟨.ok .null, .ok 0, .ok "id"⟩).res = .ok (Value.str "D") :=
  have h := getUserConfig_fresh "cfg" "a.b" (Value.str "D") []
    ⟨.ok .null, .ok 0, .ok "id"⟩ rfl rfl
  ⟨h.2.1, (h.2.2 rfl).2⟩

/-- C7: the engine's remote write first issues the owner-filtered update; a
zero-affected-rows answer triggers an existence check; a record is created
only when none exists; when one exists nothing further happens; and in
every one of these outcomes the operation resolves — zero affected rows is
never surfaced as an error. -/
theorem save_upsert_disambiguation (c : String) (doc : Value) (st : Storage)
    (gw : GwBehavior) (hdoc : isNone doc = false) :
    (∀ n, gw.updateResult = .ok n → 0 < n →
      saveUserConfigToStorageAndCloudDB c doc st gw =
        ⟨.ok (), setStorageW st ("s_" ++ c) (stripReserved doc),
          [.cacheWrite ("s_" ++ c) (stripReserved doc),
           .gwUpdate c (stripReserved doc)]⟩) ∧
    (∀ rec, gw.updateResult = .ok 0 → gw.getResult = .ok rec → jsTruthy rec = true →
      saveUserConfigToStorageAndCloudDB c doc st gw =
        ⟨.ok (), setStorageW st ("s_" ++ c) (stripReserved doc),
          [.cacheWrite ("s_" ++ c) (stripReserved doc),
           .gwUpdate c (stripReserved doc), .gwGet c]⟩) ∧
    (∀ id, gw.updateResult = .ok 0 → gw.getResult = .ok Value.null → gw.addResult = .ok id →
      saveUserConfigToStorageAndCloudDB c doc st gw =
        ⟨.ok (), setStorageW st ("s_" ++ c) (stripReserved doc),
          [.cacheWrite ("s_" ++ c) (stripReserved doc),
           .gwUpdate c (stripReserved doc), .gwGet c,
           .gwAdd c (stripReserved doc)]⟩) := by
  have h1 := putValue_strip_eq doc "_openid" rfl hdoc
  have h2 := putValue_strip_eq (delProp doc "_openid") "_id" rfl
    (by rw [isNone_delProp]; exact hdoc)
  refine ⟨fun n hu hn => ?_, fun rec hu hg ht => ?_, fun id hu hg ha => ?_⟩
  · simp [saveUserConfigToStorageAndCloudDB, h1, h2, hu, hn, stripReserved]
  · simp [saveUserConfigToStorageAndCloudDB, h1, h2, hu, hg, ht, stripReserved]
  · simp [saveUserConfigToStorageAndCloudDB, h1, h2, hu, hg, ha, stripReserved, jsTruthy]

/-- Witness for C7 at concrete inputs covering all three outcomes,
including "record exists" resolving without creating. -/
theorem save_upsert_disambiguation_witness :
    saveUserConfigToStorageAndCloudDB "x" (Value.obj [("a", Value.num 1)]) []
        ⟨.ok .null, .ok 1, .ok "id"⟩ =
      ⟨.ok (), setStorageW [] ("s_" ++ "x") (stripReserved (Value.obj [("a", Value.num 1)])),
        [.cacheWrite ("s_" ++ "x") (stripReserved (Value.obj [("a", Value.num 1)])),
         .gwUpdate "x" (stripReserved (Value.obj [("a", Value.num 1)]))]⟩ ∧
    saveUserConfigToStorageAndCloudDB "x" (Value.obj [("a", Value.num 1)]) []
        ⟨.ok (Value.obj [("b", Value.num 2)]), .ok 0, .error "unreached"⟩ =
      ⟨.ok (), setStorageW [] ("s_" ++ "x") (stripReserved (Value.obj [("a", Value.num 1)])),
        [.cacheWrite ("s_" ++ "x") (stripReserved (Value.obj [("a", Value.num 1)])),
         .gwUpdate "x" (stripReserved (Value.obj [("a", Value.num 1)])), .gwGet "x"]⟩ ∧
    saveUserConfigToStorageAndCloudDB "x" (Value.obj [("a", Value.num 1)]) []
        ⟨.ok .null, .ok 0, .ok "newid"⟩ =
      ⟨.ok (), setStorageW [] ("s_" ++ "x") (stripReserved (Value.obj [("a", Value.num 1)])),
        [.cacheWrite ("s_" ++ "x") (stripReserved (Value.obj [("a", Value.num 1)])),
         .gwUpdate "x" (stripReserved (Value.obj [("a", Value.num 1)])), .gwGet "x",
         .gwAdd "x" (stripReserved (Value.obj [("a", Value.num 1)]))]⟩ :=
  ⟨(save_upsert_disambiguation "x" (Value.obj [("a", Value.num 1)]) []
      ⟨.ok .null, .ok 1, .ok "id"⟩ rfl).1 1 rfl (by decide),
   (save_upsert_disambiguation "x" (Value.obj [("a", Value.num 1)]) []
      ⟨.ok (Value.obj [("b", Value.num 2)]), .ok 0, .error "unreached"⟩ rfl).2.1
     (Value.obj [("b", Value.num 2)]) rfl rfl rfl,
   (save_upsert_disambiguation "x" (Value.obj [("a", Value.num 1)]) []
      ⟨.ok .null, .ok 0, .ok "newid"⟩ rfl).2.2 "newid" rfl rfl rfl⟩

/-! ## Claim C6: reserved fields never leave the engine -/

/-- The recursive delete agrees with a filter. -/
theorem objDelete_eq_filter (fs : List (String × Value)) (key : String) :
    objDelete fs key = fs.filter (fun kv => kv.1 != key) := by
  induction fs with
  | nil => simp [objDelete]
  | cons kv rest ih =>
      obtain ⟨k1, v1⟩ := kv
      by_cases h : k1 = key <;> simp [objDelete, h, ih]

/-- The stripped document carries neither reserved field. -/
theorem cleanDoc_stripReserved (v : Value) : cleanDoc (stripReserved v) = true := by
  cases v <;> try rfl
  case obj fs =>
    simp only [stripReserved, delProp, objDelete_eq_filter, cleanDoc, List.all_eq_true,
      List.mem_filter, Bool.and_eq_true]
    intro kv h
    obtain ⟨⟨_, h1⟩, h2⟩ := h
    simp only [bne_iff_ne, ne_eq] at h1 h2
    simp [h1, h2]

/-- Traces concatenate cleanly. -/
theorem cleanTrace_append (a b : List Eff) :
    cleanTrace (a ++ b) = (cleanTrace a && cleanTrace b) := by
  simp [cleanTrace, List.all_append]

/-- The empty trace is clean. -/
theorem cleanTrace_nil : cleanTrace [] = true := rfl

/-- A trace is clean when its head effect and its tail are. -/
theorem cleanTrace_cons (e : Eff) (tr : List Eff) :
    cleanTrace (e :: tr) = (effClean e && cleanTrace tr) := by
  simp [cleanTrace]

/-- The fresh document carries neither reserved field. -/
theorem cleanDoc_freshDoc (c : String) : cleanDoc (freshDoc c) = true := by
  unfold freshDoc
  split <;> rfl

/-- Every effect the save operation emits carries a stripped payload. -/
theorem save_clean (c : String) (doc : Value) (st : Storage) (gw : GwBehavior) :
    cleanTrace (saveUserConfigToStorageAndCloudDB c doc st gw).trace = true := by
  by_cases hdoc : isNone doc = true
  · cases doc <;> simp_all [saveUserConfigToStorageAndCloudDB, putValue, isNone,
      show hasDot "_openid" = false from rfl, cleanTrace]
  · have hdoc2 : isNone doc = false := by simpa using hdoc
    have h1 := putValue_strip_eq doc "_openid" rfl hdoc2
    have h2 := putValue_strip_eq (delProp doc "_openid") "_id" rfl
      (by rw [isNone_delProp]; exact hdoc2)
    have hcl : cleanDoc (delProp (delProp doc "_openid") "_id") = true := by
      simpa [stripReserved] using cleanDoc_stripReserved doc
    simp only [saveUserConfigToStorageAndCloudDB, h1, h2]
    cases hu : gw.updateResult with
    | error e => simp [cleanTrace_cons, cleanTrace_nil, effClean, hcl]
    | ok n =>
        by_cases hn : n > 0
        · simp [hn, cleanTrace_cons, cleanTrace_nil, effClean, hcl]
        · cases hg : gw.getResult with
          | error e => simp [hn, cleanTrace_cons, cleanTrace_nil, effClean, hcl]
          | ok rec =>
              by_cases ht : jsTruthy rec = true
              · simp [hn, ht, cleanTrace_cons, cleanTrace_nil, effClean, hcl]
              · cases ha : gw.addResult <;>
                  simp [hn, ht, ha, cleanTrace_cons, cleanTrace_nil, effClean, hcl]

/-- Every effect of a single-field read carries a stripped payload. -/
theorem getUserConfig_clean (c key : String) (d : Value) (st : Storage) (gw : GwBehavior) :
    cleanTrace (getUserConfig c key d st gw).trace = true := by
  unfold getUserConfig
  cases hst : getStorageR st ("s_" ++ c) with
  | ok data => cases hpd : pickOrDefault data key d <;> simp [hst, hpd, cleanTrace_cons, cleanTrace_nil]
  | error e =>
      cases hg : gw.getResult with
      | error e2 => simp [hst, hg, cleanTrace_cons, cleanTrace_nil, effClean]
      | ok doc0 =>
          by_cases ht : jsTruthy doc0 = true
          · have hnn : isNone doc0 = false := by
              cases doc0 <;> simp_all [jsTruthy, isNone]
            have h1 := putValue_strip_eq doc0 "_openid" rfl hnn
            have h2 := putValue_strip_eq (delProp doc0 "_openid") "_id" rfl
              (by rw [isNone_delProp]; exact hnn)
            have hcl : cleanDoc (delProp (delProp doc0 "_openid") "_id") = true := by
              simpa [stripReserved] using cleanDoc_stripReserved doc0
            cases hpd : pickOrDefault (delProp (delProp doc0 "_openid") "_id") key d <;>
              simp [hst, hg, ht, h1, h2, hpd, cleanTrace_cons, cleanTrace_nil, effClean, hcl]
          · cases hpd : pickOrDefault (freshDoc c) key d <;>
              simp [hst, hg, ht, hpd, cleanTrace_cons, cleanTrace_nil, effClean, cleanDoc_freshDoc]

/-- Every effect of a batched read carries a stripped payload. -/
theorem getUserConfigObj_clean (c : String) (objv : List (String × Value)) (st : Storage)
    (gw : GwBehavior) : cleanTrace (getUserConfigObj c objv st gw).trace = true := by
  unfold getUserConfigObj
  cases hst : getStorageR st ("s_" ++ c) with
  | ok data => cases hpd : getObjFromData objv data <;> simp [hst, hpd, cleanTrace_cons, cleanTrace_nil]
  | error e =>
      cases hg : gw.getResult with
      | error e2 => simp [hst, hg, cleanTrace_cons, cleanTrace_nil, effClean]
      | ok doc0 =>
          by_cases ht : jsTruthy doc0 = true
          · have hnn : isNone doc0 = false := by
              cases doc0 <;> simp_all [jsTruthy, isNone]
            have h1 := putValue_strip_eq doc0 "_openid" rfl hnn
            have h2 := putValue_strip_eq (delProp doc0 "_openid") "_id" rfl
              (by rw [isNone_delProp]; exact hnn)
            have hcl : cleanDoc (delProp (delProp doc0 "_openid") "_id") = true := by
              simpa [stripReserved] using cleanDoc_stripReserved doc0
            cases hpd : getObjFromData objv (delProp (delProp doc0 "_openid") "_id") <;>
              simp [hst, hg, ht, h1, h2, hpd, cleanTrace_cons, cleanTrace_nil, effClean, hcl]
          · cases hpd : getObjFromData objv (freshDoc c) <;>
              simp [hst, hg, ht, hpd, cleanTrace_cons, cleanTrace_nil, effClean, cleanDoc_freshDoc]

/-- The document a write operates on after hydration (the record when
truthy, the fresh document otherwise) is never None. -/
theorem isNone_hydrated (c : String) (doc0 : Value) :
    isNone (if jsTruthy doc0 = true then doc0 else freshDoc c) = false := by
  by_cases ht : jsTruthy doc0 = true
  · cases doc0 <;> simp_all [jsTruthy, isNone]
  · simp [ht, isNone_freshDoc]

/-- Every effect of a single-field write carries a stripped payload. -/
theorem setUserConfig_clean (c key : String) (v : Value) (sk : Bool) (st : Storage)
    (gw : GwBehavior) : cleanTrace (setUserConfig c key v sk st gw).trace = true := by
  unfold setUserConfig
  cases hst : getStorageR st ("s_" ++ c) with
  | ok data =>
      cases hpk : pickValue data key with
      | error e => simp [hst, hpk, cleanTrace_cons, cleanTrace_nil]
      | ok pv =>
          by_cases hcond : (sk || !isEqual pv v) = true
          · cases hput : putValue data key v false with
            | error e => simp [hst, hpk, hcond, hput, cleanTrace_cons, cleanTrace_nil]
            | ok data2 => simp [hst, hpk, hcond, hput, save_clean]
          · simp only [Bool.not_eq_true] at hcond
            simp [hst, hpk, hcond, cleanTrace_cons, cleanTrace_nil]
  | error e =>
      cases hg : gw.getResult with
      | error e2 => simp [hst, hg, cleanTrace_cons, cleanTrace_nil, effClean]
      | ok doc0 =>
          have hnn := isNone_hydrated c doc0
          cases hpk : pickValue (if jsTruthy doc0 = true then doc0 else freshDoc c) key with
          | error e3 => simp [hst, hg, hpk, cleanTrace_cons, cleanTrace_nil, effClean]
          | ok pv =>
              by_cases hcond : (sk || !isEqual pv v) = true
              · cases hput : putValue (if jsTruthy doc0 = true then doc0 else freshDoc c)
                    key v false with
                | error e3 => simp [hst, hg, hpk, hcond, hput, cleanTrace_cons, cleanTrace_nil, effClean]
                | ok doc2 =>
                    simp [hst, hg, hpk, hcond, hput, cleanTrace_append, effClean, cleanTrace_cons, cleanTrace_nil,
                      save_clean]
              · have h1 := putValue_strip_eq _ "_openid" rfl hnn
                have h2 := putValue_strip_eq
                    (delProp (if jsTruthy doc0 = true then doc0 else freshDoc c) "_openid")
                    "_id" rfl (by rw [isNone_delProp]; exact hnn)
                have hcl : cleanDoc (delProp (delProp
                    (if jsTruthy doc0 = true then doc0 else freshDoc c) "_openid") "_id") =
                    true := by
                  simpa [stripReserved] using cleanDoc_stripReserved
                    (if jsTruthy doc0 = true then doc0 else freshDoc c)
                simp only [Bool.not_eq_true] at hcond
                simp [hst, hg, hpk, hcond, h1, h2, cleanTrace_cons, cleanTrace_nil, effClean, hcl]

/-- Every effect of a batched write carries a stripped payload. -/
theorem setUserConfigObj_clean (c : String) (objv : List (String × Value)) (sk : Bool)
    (st : Storage) (gw : GwBehavior) :
    cleanTrace (setUserConfigObj c objv sk st gw).trace = true := by
  unfold setUserConfigObj
  cases hst : getStorageR st ("s_" ++ c) with
  | ok data =>
      cases hsd : someDiffers data objv with
      | error e => simp [hst, hsd, cleanTrace_cons, cleanTrace_nil]
      | ok b =>
          by_cases hcond : (sk || b) = true
          · cases hput : putAll data objv with
            | error e => simp [hst, hsd, hcond, hput, cleanTrace_cons, cleanTrace_nil]
            | ok data2 => simp [hst, hsd, hcond, hput, save_clean]
          · simp only [Bool.or_eq_true, not_or] at hcond
            simp [hst, hsd, hcond.1, hcond.2, cleanTrace_cons, cleanTrace_nil]
  | error e =>
      cases hg : gw.getResult with
      | error e2 => simp [hst, hg, cleanTrace_cons, cleanTrace_nil, effClean]
      | ok doc0 =>
          have hnn := isNone_hydrated c doc0
          have h1 := putValue_strip_eq _ "_openid" rfl hnn
          have h2 := putValue_strip_eq
              (delProp (if jsTruthy doc0 = true then doc0 else freshDoc c) "_openid")
              "_id" rfl (by rw [isNone_delProp]; exact hnn)
          have hcl : cleanDoc (delProp (delProp
              (if jsTruthy doc0 = true then doc0 else freshDoc c) "_openid") "_id") =
              true := by
            simpa [stripReserved] using cleanDoc_stripReserved
              (if jsTruthy doc0 = true then doc0 else freshDoc c)
          cases hsd : someDiffers
              (delProp (delProp (if jsTruthy doc0 = true then doc0 else freshDoc c)
                "_openid") "_id") objv with
          | error e3 => simp [hst, hg, h1, h2, hsd, cleanTrace_cons, cleanTrace_nil, effClean]
          | ok b =>
              by_cases hcond : (sk || b) = true
              · cases hput : putAll (delProp (delProp
                    (if jsTruthy doc0 = true then doc0 else freshDoc c) "_openid") "_id")
                    objv with
                | error e3 => simp [hst, hg, h1, h2, hsd, hcond, hput, cleanTrace_cons, cleanTrace_nil, effClean]
                | ok d3 =>
                    simp [hst, hg, h1, h2, hsd, hcond, hput, cleanTrace_cons, cleanTrace_nil, effClean, save_clean]
              · simp only [Bool.or_eq_true, not_or] at hcond
                simp [hst, hg, h1, h2, hsd, hcond.1, hcond.2, cleanTrace_cons, cleanTrace_nil, effClean, hcl]

/-- Every effect of a buffer flush carries a stripped payload. -/
theorem flushUserConfigBuffer_clean (c : String) (buf : Option (List (String × Value)))
    (st : Storage) (gw : GwBehavior) :
    cleanTrace (flushUserConfigBuffer c buf st gw).1.trace = true := by
  unfold flushUserConfigBuffer
  cases buf with
  | none => simp [cleanTrace_cons, cleanTrace_nil]
  | some fs =>
      by_cases hemp : fs.isEmpty = true
      · simp [hemp, cleanTrace_cons, cleanTrace_nil]
      · cases hst : getStorageR st ("s_" ++ c) with
        | ok data =>
            cases hput : putAll data fs with
            | error e => simp [hemp, hst, hput, cleanTrace_cons, cleanTrace_nil]
            | ok data2 =>
                cases hres : (saveUserConfigToStorageAndCloudDB c data2 st gw).res <;>
                  simp [hemp, hst, hput, hres, save_clean c data2 st gw]
        | error e =>
            cases hg : gw.getResult with
            | error e2 => simp [hemp, hst, hg, cleanTrace_cons, cleanTrace_nil, effClean]
            | ok doc0 =>
                cases hput : putAll (if jsTruthy doc0 = true then doc0 else freshDoc c) fs with
                | error e3 => simp [hemp, hst, hg, hput, cleanTrace_cons, cleanTrace_nil, effClean]
                | ok doc2 =>
                    cases hres : (saveUserConfigToStorageAndCloudDB c doc2 st gw).res <;>
                      simp [hemp, hst, hg, hput, hres, cleanTrace_cons, cleanTrace_nil, effClean,
                        save_clean c doc2 st gw]

/-- Every effect of an array append carries a stripped payload. -/
theorem pushUserConfig_clean (c key : String) (v : Value) (ar : Bool) (lim : Option Nat)
    (pre : Bool) (st : Storage) (gw : GwBehavior) :
    cleanTrace (pushUserConfig c key v ar lim pre st gw).trace = true := by
  unfold pushUserConfig
  have hg := getUserConfig_clean c key Value.null st gw
  have hs : ∀ val : Value, cleanTrace (setUserConfig c key val false
      (getUserConfig c key Value.null st gw).storage gw).trace = true :=
    fun val => setUserConfig_clean c key val false
      (getUserConfig c key Value.null st gw).storage gw
  cases hres : (getUserConfig c key Value.null st gw).res with
  | error e => simpa [hres] using hg
  | ok data0 =>
      simp only [hres]
      cases hd : (if isNone data0 = true then Value.arr [] else data0) with
      | arr xs =>
          simp only [hd]
          split
          · simpa using hg
          · split
            · simpa using hg
            · split <;> simp [cleanTrace_append, hg, hs]
      | undefined => simp only [hd]; simpa using hg
      | null => simp only [hd]; simpa using hg
      | bool b => simp only [hd]; simpa using hg
      | num n => simp only [hd]; simpa using hg
      | str s => simp only [hd]; simpa using hg
      | obj fs => simp only [hd]; simpa using hg

/-- C6: every snapshot the engine persists to the local durable cache and
every payload it sends to the remote gateway — across reads, writes,
batched writes, buffer flushes, array appends and the save primitive —
excludes the reserved `_id` and `_openid` fields; both are stripped before
caching and before every remote write and are never re-attached. -/
theorem reserved_fields_never_leave_engine :
    (∀ c doc st gw, cleanTrace (saveUserConfigToStorageAndCloudDB c doc st gw).trace = true) ∧
    (∀ c key d st gw, cleanTrace (getUserConfig c key d st gw).trace = true) ∧
    (∀ c objv st gw, cleanTrace (getUserConfigObj c objv st gw).trace = true) ∧
    (∀ c key v sk st gw, cleanTrace (setUserConfig c key v sk st gw).trace = true) ∧
    (∀ c objv sk st gw, cleanTrace (setUserConfigObj c objv sk st gw).trace = true) ∧
    (∀ c buf st gw, cleanTrace (flushUserConfigBuffer c buf st gw).1.trace = true) ∧
    (∀ c key v ar lim pre st gw,
      cleanTrace (pushUserConfig c key v ar lim pre st gw).trace = true) :=
  ⟨save_clean, getUserConfig_clean, getUserConfigObj_clean, setUserConfig_clean,
   setUserConfigObj_clean, flushUserConfigBuffer_clean, pushUserConfig_clean⟩

/-! ## Claim C3: buffer flush against the batched write

The staged paths of a well-behaved caller never address the reserved
fields (the spec makes that a caller-side obligation); under that
hypothesis a top-level delete of a reserved key commutes with every staged
`putValue`, which lets the flush (which does not strip before applying the
staged pairs) be compared with the batched write (which strips first). -/

/-- Deleting an unrelated key does not change a lookup. -/
theorem objGet_objDelete_ne (fs : List (String × Value)) (k r : String) (h : k ≠ r) :
    objGet (objDelete fs r) k = objGet fs k := by
  induction fs with
  | nil => simp [objDelete]
  | cons kv rest ih =>
      obtain ⟨k1, v1⟩ := kv
      by_cases h1 : k1 = r
      · subst h1
        simp [objDelete, objGet, Ne.symm h, ih]
      · by_cases h2 : k1 = k
        · subst h2
          simp [objDelete, objGet, h1]
        · simp [objDelete, objGet, h1, h2, ih]

/-- Updating one key and deleting another commute. -/
theorem objSet_objDelete_ne (fs : List (String × Value)) (k r : String) (v : Value)
    (h : k ≠ r) : objSet (objDelete fs r) k v = objDelete (objSet fs k v) r := by
  induction fs with
  | nil => simp [objDelete, objSet, h]
  | cons kv rest ih =>
      obtain ⟨k1, v1⟩ := kv
      by_cases h1 : k1 = r
      · subst h1
        simp [objDelete, objSet, Ne.symm h, ih]
      · by_cases h2 : k1 = k
        · subst h2
          simp [objDelete, objSet, h1, h]
        · simp [objDelete, objSet, h1, h2, ih]

/-- Two top-level deletes commute. -/
theorem objDelete_comm (fs : List (String × Value)) (a b : String) :
    objDelete (objDelete fs a) b = objDelete (objDelete fs b) a := by
  induction fs with
  | nil => simp [objDelete]
  | cons kv rest ih =>
      obtain ⟨k1, v1⟩ := kv
      by_cases h1 : k1 = a
      · by_cases h2 : k1 = b
        · subst h1; subst h2; simp [objDelete, ih]
        · subst h1; simp [objDelete, h2, ih]
      · by_cases h2 : k1 = b
        · subst h2; simp [objDelete, h1, ih]
        · simp [objDelete, h1, h2, ih]

/-- A top-level delete is idempotent. -/
theorem objDelete_idem (fs : List (String × Value)) (a : String) :
    objDelete (objDelete fs a) a = objDelete fs a := by
  induction fs with
  | nil => simp [objDelete]
  | cons kv rest ih =>
      obtain ⟨k1, v1⟩ := kv
      by_cases h1 : k1 = a <;> simp [objDelete, h1, ih]

/-- Value-level delete commutation. -/
theorem delProp_comm (d : Value) (a b : String) :
    delProp (delProp d a) b = delProp (delProp d b) a := by
  cases d <;> simp [delProp, objDelete_comm]

/-- Value-level delete idempotence. -/
theorem delProp_idem (d : Value) (a : String) :
    delProp (delProp d a) a = delProp d a := by
  cases d <;> simp [delProp, objDelete_idem]

/-- The reserved-field strip is idempotent. -/
theorem stripReserved_idem (d : Value) :
    stripReserved (stripReserved d) = stripReserved d := by
  unfold stripReserved
  rw [delProp_comm (delProp (delProp d "_openid") "_id") "_openid" "_id",
    delProp_idem, delProp_comm (delProp d "_openid") "_id" "_openid", delProp_idem]

/-- A top-level delete of an unrelated key does not change a property read. -/
theorem getProp_delProp_ne (d : Value) (k r : String) (h : k ≠ r) :
    getProp (delProp d r) k = getProp d k := by
  cases d <;> simp [delProp, getProp, objGet_objDelete_ne _ _ _ h]

/-- A top-level delete of an unrelated key commutes with a property write. -/
theorem setProp_delProp_ne (d : Value) (k r : String) (v : Value) (h : k ≠ r) :
    setProp (delProp d r) k v = delProp (setProp d k v) r := by
  cases d with
  | obj fs => simp [delProp, setProp, objSet_objDelete_ne _ _ _ _ h]
  | arr xs =>
      simp only [delProp, setProp]
      cases natIndexOf k with
      | none => simp [delProp]
      | some i => by_cases hi : i < xs.length <;> simp [hi, delProp]
  | undefined => rfl
  | null => rfl
  | bool b => rfl
  | num n => rfl
  | str s => rfl

/-- A top-level delete of an unrelated key commutes with the leaf
assignment of `putValue`. -/
theorem putLeaf_delProp (d : Value) (k r : String) (v : Value) (ru : Bool) (h : k ≠ r) :
    putLeaf (delProp d r) k v ru = delProp (putLeaf d k v ru) r := by
  unfold putLeaf
  split
  · rw [delProp_comm]
  · rw [setProp_delProp_ne _ _ _ _ h]

/-- Delete does not change None-ness or object-ness of the root. -/
theorem isObject_delProp (d : Value) (r : String) : isObject (delProp d r) = isObject d := by
  cases d <;> rfl

/-- A top-level delete of a key other than the first path segment commutes
with the dotted-path walk of `putValue`: deeper segments never see the
root's deleted binding. -/
theorem putSegs_delProp (k : String) (rest : List String) (cur : Value) (r : String)
    (v : Value) (ru : Bool) (hk : k ≠ r) :
    putSegs (delProp cur r) (k :: rest) v ru =
      (putSegs cur (k :: rest) v ru).map (fun w => delProp w r) := by
  cases rest with
  | nil => simp [putSegs, putLeaf_delProp cur k r v ru hk, Except.map]
  | cons k2 rest2 =>
      simp only [putSegs, bind, Except.bind, getProp_delProp_ne cur k r hk]
      cases hgp : getProp cur k with
      | error e => simp [Except.map]
      | ok child =>
          by_cases hn : isNone child = true
          · simp only [hn, if_true]
            cases hrec : putSegs (Value.obj []) (k2 :: rest2) v ru with
            | error e => simp [hrec, Except.map]
            | ok nc => simp [hrec, Except.map, setProp_delProp_ne cur k r nc hk]
          · simp only [hn, Bool.false_eq_true, if_false]
            by_cases ho : isObject child = true
            · simp only [ho, if_true]
              cases hrec : putSegs child (k2 :: rest2) v ru with
              | error e => simp [hrec, Except.map]
              | ok nc => simp [hrec, Except.map, setProp_delProp_ne cur k r nc hk]
            · simp [ho, Except.map]

/-- A no-dot key splits into itself. -/
theorem splitPath_no_dot (key : String) (h : hasDot key = false) :
    splitPath key = [key] := by
  unfold splitPath
  unfold hasDot at h
  obtain ⟨cs⟩ := key
  simp only [String.toList] at *
  induction cs with
  | nil => rfl
  | cons c cs2 ih =>
      simp only [List.any_cons, Bool.or_eq_false_iff] at h
      rw [splitDots]
      rw [if_neg (by simp [h.1])]
      rw [ih h.2]
      rfl

/-- A top-level delete of a key that is neither the path's first segment
nor (for a no-dot path) the key itself commutes with `putValue`. -/
theorem putValue_delProp (d : Value) (r key : String) (v : Value) (ru : Bool)
    (hk : (splitPath key).headD "" ≠ r) :
    putValue (delProp d r) key v ru = (putValue d key v ru).map (fun w => delProp w r) := by
  unfold putValue
  rw [isNone_delProp]
  by_cases hc : hasDot key = true
  · simp only [hc, if_true, isObject_delProp]
    by_cases hn : isNone d = true
    · simp [hn, Except.map]
    · simp only [hn, Bool.false_eq_true, if_false]
      by_cases ho : isObject d = true
      · simp only [ho, if_true]
        obtain ⟨k, rest, hsp⟩ : ∃ k rest, splitPath key = k :: rest := by
          cases hsp : splitPath key with
          | nil => exact absurd hsp (splitDots_ne_nil key.toList)
          | cons a b => exact ⟨a, b, rfl⟩
        rw [hsp]
        have hk2 : k ≠ r := by
          rw [hsp] at hk
          simpa using hk
        exact putSegs_delProp k rest d r v ru hk2
      · simp [ho, Except.map]
  · have hkey : key ≠ r := by
      rw [splitPath_no_dot key (by simpa using hc)] at hk
      simpa using hk
    by_cases hn : isNone d = true
    · simp [hc, hn, Except.map]
    · simp [hc, hn, putLeaf_delProp d key r v ru hkey, Except.map]

/-- When no staged path starts at a reserved key `r`, deleting `r` at top
level commutes with applying every staged pair. -/
theorem putAll_delProp (fs : List (String × Value)) (d : Value) (r : String)
    (h : ∀ kv ∈ fs, (splitPath kv.1).headD "" ≠ r) :
    putAll (delProp d r) fs = (putAll d fs).map (fun w => delProp w r) := by
  induction fs generalizing d with
  | nil => simp [putAll, Except.map]
  | cons kv rest ih =>
      obtain ⟨k, v⟩ := kv
      have hk := h (k, v) (List.mem_cons_self _ _)
      simp only [putAll, bind, Except.bind,
        putValue_delProp d r k v false hk]
      cases hpv : putValue d k v false with
      | error e => simp [Except.map]
      | ok w =>
          simpa [Except.map] using ih w (fun kv hm => h kv (List.mem_cons_of_mem _ hm))

/-- Stripping both reserved fields first and then applying the staged pairs
is the same as applying them first and stripping afterwards. -/
theorem putAll_stripReserved (fs : List (String × Value)) (d : Value)
    (h : ∀ kv ∈ fs, (splitPath kv.1).headD "" ≠ "_id" ∧
      (splitPath kv.1).headD "" ≠ "_openid") :
    putAll (stripReserved d) fs = (putAll d fs).map stripReserved := by
  unfold stripReserved
  rw [putAll_delProp fs (delProp d "_openid") "_id" (fun kv hm => (h kv hm).1),
    putAll_delProp fs d "_openid" (fun kv hm => (h kv hm).2)]
  cases putAll d fs <;> rfl

/-- A resolved cache read is never None (the source rejects falsy stored
data). -/
theorem getStorageR_ok_not_none (st : Storage) (key : String) (v : Value)
    (h : getStorageR st key = .ok v) : isNone v = false := by
  unfold getStorageR at h
  cases hs : storageGet st key with
  | none => rw [hs] at h; simp at h
  | some w =>
      rw [hs] at h
      by_cases ht : jsTruthy w = true
      · simp only [ht, if_true] at h
        obtain rfl : w = v := by simpa using h
        cases w <;> simp_all [jsTruthy, isNone]
      · simp [ht] at h

/-- The differing-key scan never throws on a non-None snapshot. -/
theorem someDiffers_total (d : Value) (fs : List (String × Value)) (h : isNone d = false) :
    ∃ b, someDiffers d fs = .ok b := by
  induction fs with
  | nil => exact ⟨false, rfl⟩
  | cons kv rest ih =>
      obtain ⟨k, v⟩ := kv
      obtain ⟨pv, hpv⟩ := pickValue_total_of_root_not_none d k h
      by_cases he : (!isEqual pv v) = true
      · exact ⟨true, by simp [someDiffers, hpv, he, bind, Except.bind]⟩
      · obtain ⟨b, hb⟩ := ih
        exact ⟨b, by simp [someDiffers, hpv, he, hb, bind, Except.bind]⟩

/-- The save only looks at the stripped document: two inputs with the same
strip (and the same None-ness) produce identical saves. -/
theorem save_congr (c : String) (X Y : Value) (st : Storage) (gw : GwBehavior)
    (hstrip : stripReserved X = stripReserved Y) (hn : isNone X = isNone Y) :
    saveUserConfigToStorageAndCloudDB c X st gw =
      saveUserConfigToStorageAndCloudDB c Y st gw := by
  by_cases h : isNone X = true
  · have hY : isNone Y = true := hn ▸ h
    simp [saveUserConfigToStorageAndCloudDB, putValue, h, hY,
      show hasDot "_openid" = false from rfl]
  · have hX : isNone X = false := by simpa using h
    have hY : isNone Y = false := hn ▸ hX
    have h1X := putValue_strip_eq X "_openid" rfl hX
    have h2X := putValue_strip_eq (delProp X "_openid") "_id" rfl
      (by rw [isNone_delProp]; exact hX)
    have h1Y := putValue_strip_eq Y "_openid" rfl hY
    have h2Y := putValue_strip_eq (delProp Y "_openid") "_id" rfl
      (by rw [isNone_delProp]; exact hY)
    have hXY : delProp (delProp X "_openid") "_id" = delProp (delProp Y "_openid") "_id" := by
      simpa [stripReserved] using hstrip
    simp only [saveUserConfigToStorageAndCloudDB, h1X, h2X, h1Y, h2Y, hXY]

/-- C3 counterexample: with the snapshot already holding the staged value,
the batched write suppresses the remote write entirely (resolves
"unchanged" with no I/O), while the flush of the same staged map writes the
snapshot and the gateway — the flush does NOT perform the same
equality-suppressed write. -/
theorem flushUserConfigBuffer_not_suppressed_counterexample :
    setUserConfigObj "x" [("a", Value.num 1)] false [("s_x", Value.obj [("a", Value.num 1)])]
        ⟨.ok .null, .ok 1, .ok "id"⟩ =
      ⟨.ok false, [("s_x", Value.obj [("a", Value.num 1)])], []⟩ ∧
    (flushUserConfigBuffer "x" (some [("a", Value.num 1)])
        [("s_x", Value.obj [("a", Value.num 1)])] ⟨.ok .null, .ok 1, .ok "id"⟩).1.trace =
      [.cacheWrite "s_x" (Value.obj [("a", Value.num 1)]),
       .gwUpdate "x" (Value.obj [("a", Value.num 1)])] ∧
    ([] : List Eff) ≠
      [.cacheWrite "s_x" (Value.obj [("a", Value.num 1)]),
       .gwUpdate "x" (Value.obj [("a", Value.num 1)])] :=
  ⟨rfl, rfl, fun h => List.noConfusion h⟩

/-- C3 (amended): for a non-empty staged map whose paths do not address the
reserved fields, the flush behaves exactly like the batched write invoked
with skipEqualityCheck=true — same hydration, same staged applications,
same always-performed save, same storage, same effect trace, success for
success — and it clears the buffer exactly when the save succeeds. -/
theorem flushUserConfigBuffer_eq_writeFields_skip (c : String)
    (fs : List (String × Value)) (st : Storage) (gw : GwBehavior) (hne : fs ≠ [])
    (hres : ∀ kv ∈ fs, (splitPath kv.1).headD "" ≠ "_id" ∧
      (splitPath kv.1).headD "" ≠ "_openid") :
    (flushUserConfigBuffer c (some fs) st gw).1.trace =
      (setUserConfigObj c fs true st gw).trace ∧
    (flushUserConfigBuffer c (some fs) st gw).1.storage =
      (setUserConfigObj c fs true st gw).storage ∧
    ((flushUserConfigBuffer c (some fs) st gw).1.res = .ok () ↔
      (setUserConfigObj c fs true st gw).res = .ok true) ∧
    ((flushUserConfigBuffer c (some fs) st gw).2 = none ↔
      (flushUserConfigBuffer c (some fs) st gw).1.res = .ok ()) := by
  have hemp : fs.isEmpty = false := by
    cases fs with
    | nil => exact absurd rfl hne
    | cons a b => rfl
  unfold flushUserConfigBuffer setUserConfigObj
  cases hst : getStorageR st ("s_" ++ c) with
  | ok data =>
      have hdn : isNone data = false := getStorageR_ok_not_none st _ data hst
      obtain ⟨b, hb⟩ := someDiffers_total data fs hdn
      cases hput : putAll data fs with
      | error e => simp [hemp, hst, hb, hput, Except.map]
      | ok data2 =>
          cases hsr : (saveUserConfigToStorageAndCloudDB c data2 st gw).res with
          | ok u => simp [hemp, hst, hb, hput, hsr, Except.map]
          | error e => simp [hemp, hst, hb, hput, hsr, Except.map]
  | error e =>
      cases hg : gw.getResult with
      | error e2 => simp [hemp, hst, hg, Except.map]
      | ok doc0 =>
          have hDn : isNone (if jsTruthy doc0 = true then doc0 else freshDoc c) = false :=
            isNone_hydrated c doc0
          have h1 := putValue_strip_eq (if jsTruthy doc0 = true then doc0 else freshDoc c)
            "_openid" rfl hDn
          have h2 := putValue_strip_eq
            (delProp (if jsTruthy doc0 = true then doc0 else freshDoc c) "_openid") "_id" rfl
            (by rw [isNone_delProp]; exact hDn)
          obtain ⟨b, hb⟩ := someDiffers_total
            (delProp (delProp (if jsTruthy doc0 = true then doc0 else freshDoc c)
              "_openid") "_id") fs
            (by rw [isNone_delProp, isNone_delProp]; exact hDn)
          have hcomm := putAll_stripReserved fs
            (if jsTruthy doc0 = true then doc0 else freshDoc c) hres
          cases hput : putAll (if jsTruthy doc0 = true then doc0 else freshDoc c) fs with
          | error e3 =>
              have hputS : putAll
                  (delProp (delProp (if jsTruthy doc0 = true then doc0 else freshDoc c)
                    "_openid") "_id") fs = .error e3 := by
                have := hcomm
                rw [hput] at this
                simpa [stripReserved] using this
              simp [hemp, hst, hg, h1, h2, hb, hput, hputS, Except.map]
          | ok doc2 =>
              have hputS : putAll
                  (delProp (delProp (if jsTruthy doc0 = true then doc0 else freshDoc c)
                    "_openid") "_id") fs = .ok (stripReserved doc2) := by
                have := hcomm
                rw [hput] at this
                simpa [stripReserved] using this
              have hsave : saveUserConfigToStorageAndCloudDB c (stripReserved doc2) st gw =
                  saveUserConfigToStorageAndCloudDB c doc2 st gw :=
                save_congr c (stripReserved doc2) doc2 st gw (stripReserved_idem doc2)
                  (by unfold stripReserved; rw [isNone_delProp, isNone_delProp])
              cases hsr : (saveUserConfigToStorageAndCloudDB c doc2 st gw).res with
              | ok u => simp [hemp, hst, hg, h1, h2, hb, hput, hputS, hsave, hsr, Except.map]
              | error e4 => simp [hemp, hst, hg, h1, h2, hb, hput, hputS, hsave, hsr, Except.map]

/-- Witness for the amended C3 equivalence at a concrete input. -/
theorem flushUserConfigBuffer_eq_writeFields_skip_witness :
    (flushUserConfigBuffer "x" (some [("a", Value.num 2)])
        [("s_x", Value.obj [("a", Value.num 1)])] ⟨.ok .null, .ok 1, .ok "id"⟩).1.trace =
      (setUserConfigObj "x" [("a", Value.num 2)] true
        [("s_x", Value.obj [("a", Value.num 1)])] ⟨.ok .null, .ok 1, .ok "id"⟩).trace ∧
    ((flushUserConfigBuffer "x" (some [("a", Value.num 2)])
        [("s_x", Value.obj [("a", Value.num 1)])] ⟨.ok .null, .ok 1, .ok "id"⟩).1.res = .ok () ↔
      (setUserConfigObj "x" [("a", Value.num 2)] true
        [("s_x", Value.obj [("a", Value.num 1)])] ⟨.ok .null, .ok 1, .ok "id"⟩).res =
        .ok true) :=
  have h := flushUserConfigBuffer_eq_writeFields_skip "x" [("a", Value.num 2)]
    [("s_x", Value.obj [("a", Value.num 1)])] ⟨.ok .null, .ok 1, .ok "id"⟩
    (by simp)
    (by
      intro kv hm
      rw [List.mem_singleton] at hm
      subst hm
      exact ⟨by decide, by decide⟩)
  ⟨h.1, h.2.2.1⟩

end Booster
